import Mathlib

/-!
Verification development for the drizzle-graphql-plus schema-and-query
compiler.  The definitions below are a shallow embedding of the
TypeScript source: JavaScript objects are association lists in field
order, runtime values are a JSON-like inductive type, thrown
GraphQLError exceptions are the error branch of Except, and the module
in "util/data-mappers" (not part of the compiler core) is threaded as an
explicit remap function parameter.
-/

namespace DrizzleGraphql

/-- Runtime value as seen by the resolvers: the subset of JavaScript
values that flow through GraphQL argument objects. -/
inductive JVal where
  | jnull
  | jbool (b : Bool)
  | jstr (s : String)
  | jint (n : Int)
  | jarr (elems : List JVal)
  | jobj (fields : List (String × JVal))
deriving Repr

/-- Declared data kind of a drizzle column (the dataType string). -/
inductive DataType where
  | boolean
  | json
  | date
  | string
  | bigint
  | number
  | buffer
  | array
  | custom
deriving Repr, DecidableEq

/-- Column descriptor: the fields of a drizzle Column object that the
compiler reads.  The isIntKind flag models the
is(column, PgInteger or PgSerial or MySqlInt or MySqlSerial or SQLiteInteger)
instance test used for the number kind. -/
structure Column where
  name : String
  dataType : DataType
  columnType : Option String
  enumValues : Option (List String)
  customGraphqlType : Option String
  customGraphqlDescription : Option String
  notNull : Bool
  hasDefault : Bool
  defaultFn : Bool
  primary : Bool
  isIntKind : Bool
deriving Repr, DecidableEq

/-- TableInfo as built by generateTypes: name, plus the column map keyed
by the JS property name (association list in property order). -/
structure TableInfo where
  name : String
  columns : List (String × Column)
deriving Repr, DecidableEq

/-- Structured error thrown by the resolvers (GraphQLError). -/
structure GraphQLError where
  message : String
deriving Repr, DecidableEq

/-- Property lookup on a JS object modelled as an association list:
first binding wins (JS objects have unique keys). -/
def lookupJ : List (String × JVal) → String → Option JVal
  | [], _ => none
  | (k, v) :: rest, key => if k = key then some v else lookupJ rest key

/-- Deep-embedded predicate expression produced by the filter compiler
(the drizzle SQL condition constructors). -/
inductive SQLExpr where
  | eqE (c : Column) (v : JVal)
  | neE (c : Column) (v : JVal)
  | gtE (c : Column) (v : JVal)
  | gteE (c : Column) (v : JVal)
  | ltE (c : Column) (v : JVal)
  | lteE (c : Column) (v : JVal)
  | likeE (c : Column) (v : JVal)
  | notLikeE (c : Column) (v : JVal)
  | ilikeE (c : Column) (v : JVal)
  | notIlikeE (c : Column) (v : JVal)
  | inArrayE (c : Column) (vs : List JVal)
  | notInArrayE (c : Column) (vs : List JVal)
  | isNullE (c : Column)
  | isNotNullE (c : Column)
  | andE (es : List SQLExpr)
  | orE (es : List SQLExpr)
deriving Repr

/-- Signature of remapFromGraphQLCore(value, column, columnName) from
util/data-mappers, passed explicitly. -/
abbrev Remap := JVal → Column → String → JVal

/-- Combination used at the end of each conjunction branch:
variants.length ? (variants.length > 1 ? and(...variants) : variants[0]) : undefined. -/
def combineAnd : List SQLExpr → Option SQLExpr
  | [] => none
  | [v] => some v
  | v :: vs => some (.andE (v :: vs))

/-- Combination used at the end of each OR branch:
variants.length ? (variants.length > 1 ? or(...variants) : variants[0]) : undefined. -/
def combineOr : List SQLExpr → Option SQLExpr
  | [] => none
  | [v] => some v
  | v :: vs => some (.orE (v :: vs))

/-- One case of the operator switch in extractFiltersColumn.  Returns
ok none for operator keys without a switch case (they are skipped) and
for operand shapes that the typed GraphQL layer cannot produce.
Returns the empty-array error for inArray and notInArray on an empty
operand list. -/
def compileOperator (remap : Remap) (column : Column) (columnName : String)
    (operatorName : String) (operatorValue : JVal) :
    Except GraphQLError (Option SQLExpr) :=
  match operatorName with
  | "eq" => .ok (some (.eqE column (remap operatorValue column columnName)))
  | "ne" => .ok (some (.neE column (remap operatorValue column columnName)))
  | "gt" => .ok (some (.gtE column (remap operatorValue column columnName)))
  | "gte" => .ok (some (.gteE column (remap operatorValue column columnName)))
  | "lt" => .ok (some (.ltE column (remap operatorValue column columnName)))
  | "lte" => .ok (some (.lteE column (remap operatorValue column columnName)))
  | "like" => .ok (some (.likeE column operatorValue))
  | "notLike" => .ok (some (.notLikeE column operatorValue))
  | "ilike" => .ok (some (.ilikeE column operatorValue))
  | "notIlike" => .ok (some (.notIlikeE column operatorValue))
  | "inArray" =>
    match operatorValue with
    | .jarr vs =>
      if vs.isEmpty then
        .error ⟨"WHERE " ++ columnName ++ ": Unable to use operator inArray with an empty array!"⟩
      else
        .ok (some (.inArrayE column (vs.map (fun val => remap val column columnName))))
    | _ => .ok none
  | "notInArray" =>
    match operatorValue with
    | .jarr vs =>
      if vs.isEmpty then
        .error ⟨"WHERE " ++ columnName ++ ": Unable to use operator notInArray with an empty array!"⟩
      else
        .ok (some (.notInArrayE column (vs.map (fun val => remap val column columnName))))
    | _ => .ok none
  | "isNull" => .ok (some (.isNullE column))
  | "isNotNull" => .ok (some (.isNotNullE column))
  | _ => .ok none

/-- Truthiness test operatorValue === null || operatorValue === false
that makes the loop skip an entry. -/
def skipValue : JVal → Bool
  | .jnull => true
  | .jbool false => true
  | _ => false

/-- The for-of loop over Object.entries(operators) in
extractFiltersColumn: entries with value null or false are skipped, the
others are compiled and pushed onto the variants accumulator. -/
def extractFiltersLoop (remap : Remap) (column : Column) (columnName : String) :
    List (String × JVal) → List SQLExpr → Except GraphQLError (List SQLExpr)
  | [], variants => .ok variants
  | (operatorName, operatorValue) :: rest, variants =>
    if skipValue operatorValue then
      extractFiltersLoop remap column columnName rest variants
    else
      match compileOperator remap column columnName operatorName operatorValue with
      | .error e => .error e
      | .ok none => extractFiltersLoop remap column columnName rest variants
      | .ok (some v) => extractFiltersLoop remap column columnName rest (variants ++ [v])

theorem sizeOf_lookupJ_lt {l : List (String × JVal)} {key : String} {v : JVal}
    (h : lookupJ l key = some v) : sizeOf v < sizeOf l := by
  induction l with
  | nil => simp [lookupJ] at h
  | cons p rest ih =>
    obtain ⟨k, w⟩ := p
    by_cases hk : k = key
    · simp [lookupJ, hk] at h
      subst h
      simp
      omega
    · simp [lookupJ, hk] at h
      have := ih h
      simp
      omega

mutual

/-- Filter compiler for a single column (extractFiltersColumn in the
source): handles the exclusive OR branch, otherwise runs the operator
loop and conjoins the compiled variants. -/
def extractFiltersColumn (remap : Remap) (column : Column) (columnName : String)
    (operators : List (String × JVal)) : Except GraphQLError (Option SQLExpr) :=
  if operators.isEmpty then .ok none
  else
    match _h : lookupJ operators "OR" with
    | some (.jarr (v :: vs)) =>
      if operators.length > 1 then
        .error ⟨"WHERE " ++ columnName ++ ": Cannot specify both fields and \x27OR\x27 in column operators!"⟩
      else
        match orVariantsColumn remap column columnName (v :: vs) with
        | .error e => .error e
        | .ok variants => .ok (combineOr variants)
    | _ =>
      match extractFiltersLoop remap column columnName operators [] with
      | .error e => .error e
      | .ok variants => .ok (combineAnd variants)
termination_by sizeOf operators
decreasing_by
  have h1 := sizeOf_lookupJ_lt _h
  simp at h1 ⊢
  omega

/-- The for-of loop over operators.OR in extractFiltersColumn: each
variant is compiled recursively and pushed when truthy. -/
def orVariantsColumn (remap : Remap) (column : Column) (columnName : String) :
    List JVal → Except GraphQLError (List SQLExpr)
  | [] => .ok []
  | variant :: rest =>
    let extracted : Except GraphQLError (Option SQLExpr) :=
      match variant with
      | .jobj fields => extractFiltersColumn remap column columnName fields
      | _ => .ok none
    match extracted with
    | .error e => .error e
    | .ok ex =>
      match orVariantsColumn remap column columnName rest with
      | .error e => .error e
      | .ok restVariants =>
        .ok (match ex with
             | some v => v :: restVariants
             | none => restVariants)
termination_by l => sizeOf l
decreasing_by
  all_goals simp
  all_goals omega

end

/-- Generic string-keyed association-list lookup, modelling property
access on JS objects and records. -/
def slookup {α : Type} : List (String × α) → String → Option α
  | [], _ => none
  | (k, v) :: rest, key => if k = key then some v else slookup rest key

/-- One non-OR entry of the buildWhereClause loop: null and empty
operator objects and unknown columns are skipped (compile to nothing),
otherwise the column filter compiler runs. -/
def whereEntryStep (remap : Remap) (tableInfo : TableInfo) (columnName : String)
    (operators : JVal) : Except GraphQLError (Option SQLExpr) :=
  match operators with
  | .jobj ops =>
    if ops.isEmpty then .ok none
    else
      match slookup tableInfo.columns columnName with
      | none => .ok none
      | some column => extractFiltersColumn remap column columnName ops
  | _ => .ok none

/-- The for-of loop over Object.entries(where) in buildWhereClause:
skips the OR key, compiles each remaining entry through whereEntryStep
and pushes the truthy results. -/
def whereLoop (remap : Remap) (tableInfo : TableInfo) :
    List (String × JVal) → List SQLExpr → Except GraphQLError (List SQLExpr)
  | [], conditions => .ok conditions
  | (columnName, operators) :: rest, conditions =>
    if columnName = "OR" then whereLoop remap tableInfo rest conditions
    else
      match whereEntryStep remap tableInfo columnName operators with
      | .error e => .error e
      | .ok (some extracted) => whereLoop remap tableInfo rest (conditions ++ [extracted])
      | .ok none => whereLoop remap tableInfo rest conditions

mutual

/-- Table-level filter compiler (buildWhereClause in the source):
undefined or empty input compiles to no filter; a non-empty OR entry is
exclusive with every other key; otherwise each column entry is compiled
and the results conjoined. -/
def buildWhereClause (remap : Remap) (tableInfo : TableInfo) :
    Option (List (String × JVal)) → Except GraphQLError (Option SQLExpr)
  | none => .ok none
  | some wentries =>
    if wentries.isEmpty then .ok none
    else
      match _h : lookupJ wentries "OR" with
      | some (.jarr (v :: vs)) =>
        if wentries.length > 1 then
          .error ⟨"WHERE " ++ tableInfo.name ++ ": Cannot specify both fields and \x27OR\x27 in table filters!"⟩
        else
          match orVariantsTable remap tableInfo (v :: vs) with
          | .error e => .error e
          | .ok variants => .ok (combineOr variants)
      | _ =>
        match whereLoop remap tableInfo wentries [] with
        | .error e => .error e
        | .ok conditions => .ok (combineAnd conditions)
termination_by w => sizeOf w
decreasing_by
  have h1 := sizeOf_lookupJ_lt _h
  simp at h1 ⊢
  omega

/-- The for-of loop over where.OR in buildWhereClause. -/
def orVariantsTable (remap : Remap) (tableInfo : TableInfo) :
    List JVal → Except GraphQLError (List SQLExpr)
  | [] => .ok []
  | variant :: rest =>
    let extracted : Except GraphQLError (Option SQLExpr) :=
      match variant with
      | .jobj fields => buildWhereClause remap tableInfo (some fields)
      | _ => .ok none
    match extracted with
    | .error e => .error e
    | .ok ex =>
      match orVariantsTable remap tableInfo rest with
      | .error e => .error e
      | .ok restVariants =>
        .ok (match ex with
             | some v => v :: restVariants
             | none => restVariants)
termination_by l => sizeOf l
decreasing_by
  all_goals simp
  all_goals omega

end

/-- Direction and priority pair of one orderBy entry (InnerOrder input);
the direction is the serialized enum value, asc or desc. -/
structure OrderByField where
  direction : String
  priority : Int
deriving Repr, DecidableEq

/-- Compiled sort key: asc(column) or desc(column) from drizzle. -/
inductive OrderClause where
  | ascC (c : Column)
  | descC (c : Column)
deriving Repr, DecidableEq

/-- Stable insertion of one entry into a priority-sorted list: the new
entry goes before the first strictly larger priority, after equal
priorities already present.  Together with sortByPriority this models
the stable JS Array.prototype.sort with comparator a.priority - b.priority. -/
def insertByPriority (x : String × OrderByField) :
    List (String × OrderByField) → List (String × OrderByField)
  | [] => [x]
  | y :: ys => if x.2.priority ≤ y.2.priority then x :: y :: ys else y :: insertByPriority x ys

/-- Stable sort of the orderBy entries ascending by priority. -/
def sortByPriority (l : List (String × OrderByField)) : List (String × OrderByField) :=
  l.foldr insertByPriority []

/-- The for-of loop over the sorted order entries: resolves each column
name against the table, dropping entries whose column is absent. -/
def orderLoop (tableInfo : TableInfo) : List (String × OrderByField) → List OrderClause
  | [] => []
  | entry :: rest =>
    match slookup tableInfo.columns entry.1 with
    | some column =>
      (if entry.2.direction = "desc" then OrderClause.descC column else OrderClause.ascC column)
        :: orderLoop tableInfo rest
    | none => orderLoop tableInfo rest

/-- Order compiler (buildOrderByClause in the source): converts the
orderBy record to entries, sorts ascending by priority, drops entries
naming columns absent from the table, and returns undefined for an
empty or absent input or when nothing survives. -/
def buildOrderByClause (tableInfo : TableInfo) :
    Option (List (String × OrderByField)) → Option (List OrderClause)
  | none => none
  | some orderBy =>
    if orderBy.isEmpty then none
    else
      let orderEntries := sortByPriority orderBy
      let orderClauses := orderLoop tableInfo orderEntries
      if orderClauses.isEmpty then none else some orderClauses

/-- Arguments attached to one requested field, after GraphQL input
coercion: where, orderBy, limit, offset (absent keys are none). -/
structure QueryArgs where
  whereArg : Option (List (String × JVal))
  orderByArg : Option (List (String × OrderByField))
  limit : Option Int
  offset : Option Int
deriving Repr

/-- Parsed requested-field tree, as produced by
graphql-parse-resolve-info: each node carries its own arguments and the
sub-selection grouped by concrete type name. -/
inductive ResolveTree where
  | mk (args : QueryArgs) (fieldsByTypeName : List (String × List (String × ResolveTree)))

/-- Arguments of a ResolveTree node. -/
def ResolveTree.args : ResolveTree → QueryArgs
  | .mk a _ => a

/-- Sub-selection of a ResolveTree node, grouped by type name. -/
def ResolveTree.fieldsByTypeName : ResolveTree → List (String × List (String × ResolveTree))
  | .mk _ f => f

mutual

/-- Depth of one requested-field node: one plus the depth of its
sub-selection. -/
def treeDepth : ResolveTree → Nat
  | .mk _ fbtn => 1 + typeMapDepth fbtn

/-- Depth of a fieldsByTypeName group: maximum over the per-type field
lists. -/
def typeMapDepth : List (String × List (String × ResolveTree)) → Nat
  | [] => 0
  | (_, fieldsOfType) :: rest => max (forestDepth fieldsOfType) (typeMapDepth rest)

/-- Depth of a field list: maximum depth of its trees. -/
def forestDepth : List (String × ResolveTree) → Nat
  | [] => 0
  | (_, t) :: rest => max (treeDepth t) (forestDepth rest)

end

/-- One step of the Object.assign merge used to flatten
fieldsByTypeName: an existing key is overwritten in place, a new key is
appended. -/
def objInsert (acc : List (String × ResolveTree)) (kv : String × ResolveTree) :
    List (String × ResolveTree) :=
  if acc.any (fun p => p.1 = kv.1) then
    acc.map (fun p => if p.1 = kv.1 then (p.1, kv.2) else p)
  else acc ++ [kv]

/-- The allFields collection loop of the resolvers: Object.assign of
every per-type field record of a fieldsByTypeName value into one
record. -/
def collectAllFields (fieldsByTypeName : List (String × List (String × ResolveTree))) :
    List (String × ResolveTree) :=
  fieldsByTypeName.foldl (fun acc typeEntry => typeEntry.2.foldl objInsert acc) []

/-- Projection extraction (extractSelectedColumns in the source): the
requested field names that are columns of the table. -/
def extractSelectedColumns (fields : List (String × ResolveTree)) (tableInfo : TableInfo) :
    List String :=
  (fields.map Prod.fst).filter (fun fieldName => (slookup tableInfo.columns fieldName).isSome)

/-- Relation entry of the relation map: the target table name plus the
cardinality of the drizzle Relation object (is(relation, One)). -/
structure TableNamedRelations where
  targetTableName : String
  relationIsOne : Bool
deriving Repr, DecidableEq

/-- Storage-facing nested fetch plan: the argument object passed to the
relational query builder, with one child plan per requested relation
under withRel. -/
inductive FetchPlan where
  | mk (columns : List String) (whereC : Option SQLExpr) (orderBy : Option (List OrderClause))
      (limit : Option Int) (offset : Option Int)
      (withRel : Option (List (String × FetchPlan)))
deriving Repr

/-- Projected columns of a fetch plan. -/
def FetchPlan.columns : FetchPlan → List String
  | .mk c _ _ _ _ _ => c

/-- Filter of a fetch plan. -/
def FetchPlan.whereC : FetchPlan → Option SQLExpr
  | .mk _ w _ _ _ _ => w

/-- Sort keys of a fetch plan. -/
def FetchPlan.orderBy : FetchPlan → Option (List OrderClause)
  | .mk _ _ o _ _ _ => o

/-- Limit of a fetch plan. -/
def FetchPlan.limit : FetchPlan → Option Int
  | .mk _ _ _ l _ _ => l

/-- Offset of a fetch plan. -/
def FetchPlan.offset : FetchPlan → Option Int
  | .mk _ _ _ _ o _ => o

/-- Child plans of a fetch plan, keyed by relation name. -/
def FetchPlan.withRel : FetchPlan → Option (List (String × FetchPlan))
  | .mk _ _ _ _ _ w => w

theorem slookup_mem {α : Type} {l : List (String × α)} {key : String} {v : α}
    (h : slookup l key = some v) : (key, v) ∈ l := by
  induction l with
  | nil => simp [slookup] at h
  | cons p rest ih =>
    obtain ⟨k, w⟩ := p
    by_cases hk : k = key
    · subst hk
      simp [slookup] at h
      subst h
      exact List.mem_cons_self _ _
    · simp [slookup, hk] at h
      exact List.mem_cons_of_mem _ (ih h)

theorem treeDepth_le_forestDepth {fields : List (String × ResolveTree)}
    {p : String × ResolveTree} (h : p ∈ fields) : treeDepth p.2 ≤ forestDepth fields := by
  induction fields with
  | nil => simp at h
  | cons q rest ih =>
    obtain ⟨k, t⟩ := q
    rcases List.mem_cons.mp h with h1 | h1
    · subst h1
      simp [forestDepth]
    · calc treeDepth p.2 ≤ forestDepth rest := ih h1
        _ ≤ forestDepth ((k, t) :: rest) := by simp [forestDepth]

theorem forestDepth_le_typeMapDepth {fbtn : List (String × List (String × ResolveTree))}
    {q : String × List (String × ResolveTree)} (h : q ∈ fbtn) :
    forestDepth q.2 ≤ typeMapDepth fbtn := by
  induction fbtn with
  | nil => simp at h
  | cons r rest ih =>
    obtain ⟨tn, fl⟩ := r
    rcases List.mem_cons.mp h with h1 | h1
    · subst h1
      simp [typeMapDepth]
    · calc forestDepth q.2 ≤ typeMapDepth rest := ih h1
        _ ≤ typeMapDepth ((tn, fl) :: rest) := by simp [typeMapDepth]

theorem forestDepth_le_of_all {fields : List (String × ResolveTree)} {bound : Nat}
    (h : ∀ p ∈ fields, treeDepth p.2 ≤ bound) : forestDepth fields ≤ bound := by
  induction fields with
  | nil => simp [forestDepth]
  | cons q rest ih =>
    obtain ⟨k, t⟩ := q
    simp only [forestDepth, max_le_iff]
    constructor
    · exact h (k, t) (List.mem_cons_self _ _)
    · exact ih (fun p hp => h p (List.mem_cons_of_mem _ hp))

theorem objInsert_depth {acc : List (String × ResolveTree)} {kv : String × ResolveTree}
    {bound : Nat} (hacc : ∀ p ∈ acc, treeDepth p.2 ≤ bound)
    (hkv : treeDepth kv.2 ≤ bound) : ∀ p ∈ objInsert acc kv, treeDepth p.2 ≤ bound := by
  intro p hp
  unfold objInsert at hp
  by_cases hc : acc.any (fun p => p.1 = kv.1)
  · simp only [hc, if_pos] at hp
    rcases List.mem_map.mp hp with ⟨q, hq, hqe⟩
    by_cases hqk : q.1 = kv.1
    · simp [hqk] at hqe
      subst hqe
      exact hkv
    · simp [hqk] at hqe
      subst hqe
      exact hacc q hq
  · simp only [hc, if_neg, not_false_iff] at hp
    rcases List.mem_append.mp hp with h1 | h1
    · exact hacc p h1
    · simp at h1
      subst h1
      exact hkv

theorem foldl_objInsert_depth {fl : List (String × ResolveTree)} {bound : Nat} :
    ∀ acc : List (String × ResolveTree), (∀ p ∈ acc, treeDepth p.2 ≤ bound) →
    (∀ p ∈ fl, treeDepth p.2 ≤ bound) →
    ∀ p ∈ fl.foldl objInsert acc, treeDepth p.2 ≤ bound := by
  induction fl with
  | nil => intro acc hacc _ p hp; exact hacc p hp
  | cons q rest ih =>
    intro acc hacc hfl p hp
    simp only [List.foldl_cons] at hp
    refine ih (objInsert acc q) ?_ (fun r hr => hfl r (List.mem_cons_of_mem _ hr)) p hp
    exact objInsert_depth hacc (hfl q (List.mem_cons_self _ _))

theorem collectAllFields_depth {fbtn : List (String × List (String × ResolveTree))} :
    ∀ p ∈ collectAllFields fbtn, treeDepth p.2 ≤ typeMapDepth fbtn := by
  unfold collectAllFields
  suffices h : ∀ (l : List (String × List (String × ResolveTree)))
      (acc : List (String × ResolveTree)) (bound : Nat),
      (∀ p ∈ acc, treeDepth p.2 ≤ bound) →
      (∀ q ∈ l, ∀ p ∈ q.2, treeDepth p.2 ≤ bound) →
      ∀ p ∈ l.foldl (fun acc typeEntry => typeEntry.2.foldl objInsert acc) acc,
        treeDepth p.2 ≤ bound by
    intro p hp
    refine h fbtn [] (typeMapDepth fbtn) (by simp) ?_ p hp
    intro q hq r hr
    calc treeDepth r.2 ≤ forestDepth q.2 := treeDepth_le_forestDepth hr
      _ ≤ typeMapDepth fbtn := forestDepth_le_typeMapDepth hq
  intro l
  induction l with
  | nil => intro acc bound hacc _ p hp; exact hacc p hp
  | cons q rest ih =>
    intro acc bound hacc hl p hp
    simp only [List.foldl_cons] at hp
    refine ih (q.2.foldl objInsert acc) bound ?_
      (fun r hr => hl r (List.mem_cons_of_mem _ hr)) p hp
    exact foldl_objInsert_depth acc hacc (hl q (List.mem_cons_self _ _))

theorem forestDepth_collectAllFields_lt {fields : List (String × ResolveTree)}
    {relName : String} {relationField : ResolveTree}
    (h : slookup fields relName = some relationField) :
    forestDepth (collectAllFields relationField.fieldsByTypeName) < forestDepth fields := by
  have hmem := slookup_mem h
  have h1 : treeDepth relationField ≤ forestDepth fields :=
    treeDepth_le_forestDepth (p := (relName, relationField)) hmem
  have h2 : forestDepth (collectAllFields relationField.fieldsByTypeName) ≤
      typeMapDepth relationField.fieldsByTypeName := by
    apply forestDepth_le_of_all
    intro p hp
    exact collectAllFields_depth p hp
  have h3 : 1 + typeMapDepth relationField.fieldsByTypeName = treeDepth relationField := by
    cases relationField
    simp [treeDepth, ResolveTree.fieldsByTypeName]
  omega

mutual

/-- Selection and relation planner (extractRelationsParams in the
source): for each declared relation of the table that appears in the
requested fields, builds a child fetch plan from the relation field
sub-selection and its own arguments, recursing into the relation target
table. -/
def extractRelationsParams (remap : Remap)
    (relationMap : List (String × List (String × TableNamedRelations)))
    (tables : List (String × TableInfo)) (tableName : String)
    (fields : List (String × ResolveTree)) :
    Except GraphQLError (Option (List (String × FetchPlan))) :=
  match _h : slookup relationMap tableName with
  | none => .ok none
  | some relations =>
    match relationsLoop remap relationMap tables fields relations with
    | .error e => .error e
    | .ok args => .ok (if args.isEmpty then none else some args)
termination_by (forestDepth fields, ((slookup relationMap tableName).getD []).length + 2)
decreasing_by
  rw [_h]
  exact Prod.Lex.right _ (by simp)

/-- The for-of loop over the relation entries of the current table in
extractRelationsParams: each entry contributes its child plan through
relationStep. -/
def relationsLoop (remap : Remap)
    (relationMap : List (String × List (String × TableNamedRelations)))
    (tables : List (String × TableInfo)) (fields : List (String × ResolveTree)) :
    List (String × TableNamedRelations) → Except GraphQLError (List (String × FetchPlan))
  | [] => .ok []
  | (relName, relInfo) :: rest =>
    match relationStep remap relationMap tables fields relName relInfo with
    | .error e => .error e
    | .ok none => relationsLoop remap relationMap tables fields rest
    | .ok (some entry) =>
      match relationsLoop remap relationMap tables fields rest with
      | .error e => .error e
      | .ok restArgs => .ok (entry :: restArgs)
termination_by rels => (forestDepth fields, rels.length + 1)
decreasing_by
  all_goals exact Prod.Lex.right _ (by simp)

/-- One relation entry of the extractRelationsParams loop: skipped when
the relation is not requested or its target table is unknown, otherwise
the child fetch plan is built from the sub-selection, the relation
arguments and the recursive nested plans. -/
def relationStep (remap : Remap)
    (relationMap : List (String × List (String × TableNamedRelations)))
    (tables : List (String × TableInfo)) (fields : List (String × ResolveTree))
    (relName : String) (relInfo : TableNamedRelations) :
    Except GraphQLError (Option (String × FetchPlan)) :=
  match _hf : slookup fields relName with
  | none => .ok none
  | some relationField =>
    match slookup tables relInfo.targetTableName with
    | none => .ok none
    | some targetTable =>
      match (match relationField.args.whereArg with
             | some w => buildWhereClause remap targetTable (some w)
             | none => .ok none) with
      | .error e => .error e
      | .ok whereC =>
        match extractRelationsParams remap relationMap tables relInfo.targetTableName
            (collectAllFields relationField.fieldsByTypeName) with
        | .error e => .error e
        | .ok nestedWith =>
          .ok (some (relName,
            FetchPlan.mk
              (extractSelectedColumns (collectAllFields relationField.fieldsByTypeName) targetTable)
              whereC
              (match relationField.args.orderByArg with
               | some ob => buildOrderByClause targetTable (some ob)
               | none => none)
              relationField.args.limit relationField.args.offset nestedWith))
termination_by (forestDepth fields, 0)
decreasing_by
  exact Prod.Lex.left _ _ (forestDepth_collectAllFields_lt _hf)

end

/-- Database row returned by the storage capability. -/
abbrev Row := List (String × JVal)

/-- Property read row[key]; absence (JS undefined) is modelled as null. -/
def rowGet (row : Row) (key : String) : JVal := (slookup row key).getD .jnull

/-- Storage capability behind queryBase.findMany: accepts one nested
fetch plan and returns matching rows, or fails. -/
abbrev FindManyStorage := FetchPlan → Except GraphQLError (List Row)

/-- Storage capability behind queryBase.findFirst. -/
abbrev FindFirstStorage := FetchPlan → Except GraphQLError (Option Row)

/-- Plan compilation step of the find-many resolver: the whole argument
object passed to queryBase.findMany, built entirely before the storage
call is made. -/
def compileFindManyPlan (remap : Remap) (tableInfo : TableInfo)
    (tables : List (String × TableInfo))
    (relations : List (String × List (String × TableNamedRelations)))
    (args : QueryArgs) (info : ResolveTree) : Except GraphQLError FetchPlan :=
  let allFields := collectAllFields info.fieldsByTypeName
  match buildWhereClause remap tableInfo args.whereArg with
  | .error e => .error e
  | .ok whereC =>
    match extractRelationsParams remap relations tables tableInfo.name allFields with
    | .error e => .error e
    | .ok withRel =>
      .ok (FetchPlan.mk (extractSelectedColumns allFields tableInfo) whereC
        (buildOrderByClause tableInfo args.orderByArg) args.limit args.offset withRel)

/-- Find-many operation resolver (createFindManyResolver in the
source): compiles the entire nested plan, submits it to the storage
capability exactly once, and rethrows storage or compilation failures
as GraphQLError.  The second component is the trace of storage
invocations performed by the call. -/
def createFindManyResolver (storage : FindManyStorage) (remap : Remap) (tableInfo : TableInfo)
    (tables : List (String × TableInfo))
    (relations : List (String × List (String × TableNamedRelations)))
    (args : QueryArgs) (info : ResolveTree) :
    Except GraphQLError (List Row) × List FetchPlan :=
  match compileFindManyPlan remap tableInfo tables relations args info with
  | .error e => (.error ⟨e.message⟩, [])
  | .ok plan =>
    match storage plan with
    | .error e => (.error ⟨e.message⟩, [plan])
    | .ok rows => (.ok rows, [plan])

/-- Arguments of the find-first resolver: where and orderBy only. -/
structure FindFirstArgs where
  whereArg : Option (List (String × JVal))
  orderByArg : Option (List (String × OrderByField))

/-- Plan compilation step of the find-first resolver: findFirst passes
columns, orderBy, where and with, and no limit or offset keys. -/
def compileFindFirstPlan (remap : Remap) (tableInfo : TableInfo)
    (tables : List (String × TableInfo))
    (relations : List (String × List (String × TableNamedRelations)))
    (args : FindFirstArgs) (info : ResolveTree) : Except GraphQLError FetchPlan :=
  let allFields := collectAllFields info.fieldsByTypeName
  match buildWhereClause remap tableInfo args.whereArg with
  | .error e => .error e
  | .ok whereC =>
    match extractRelationsParams remap relations tables tableInfo.name allFields with
    | .error e => .error e
    | .ok withRel =>
      .ok (FetchPlan.mk (extractSelectedColumns allFields tableInfo) whereC
        (buildOrderByClause tableInfo args.orderByArg) none none withRel)

/-- Find-first operation resolver (createFindFirstResolver in the
source): one storage invocation, result or null, never an error for a
zero-row match.  The second component is the storage invocation trace. -/
def createFindFirstResolver (storage : FindFirstStorage) (remap : Remap) (tableInfo : TableInfo)
    (tables : List (String × TableInfo))
    (relations : List (String × List (String × TableNamedRelations)))
    (args : FindFirstArgs) (info : ResolveTree) :
    Except GraphQLError (Option Row) × List FetchPlan :=
  match compileFindFirstPlan remap tableInfo tables relations args info with
  | .error e => (.error ⟨e.message⟩, [])
  | .ok plan =>
    match storage plan with
    | .error e => (.error ⟨e.message⟩, [plan])
    | .ok result => (.ok result, [plan])

/-- Insert-many operation resolver (createInsertManyResolver in the
source): validates a non-empty value list, submits the remapped values
to the storage write capability requesting the written rows back,
extracts each written row primary key, and re-selects through the
find-many resolver with a primary-key inArray filter and the original
requested-field tree. -/
def createInsertManyResolver (storage : FindManyStorage)
    (insertStorage : List Row → Except GraphQLError (List Row))
    (remapArrayInput : List Row → List Row) (remap : Remap)
    (tableInfo : TableInfo) (tables : List (String × TableInfo))
    (relations : List (String × List (String × TableNamedRelations)))
    (primaryKeyColumn : Column) (values : List Row) (info : ResolveTree) :
    Except GraphQLError (List Row) :=
  let inner : Except GraphQLError (List Row) :=
    if values.isEmpty then .error ⟨"No values provided for insert"⟩
    else
      let remappedValues := remapArrayInput values
      match insertStorage remappedValues with
      | .error e => .error e
      | .ok insertedRows =>
        let insertedIds := insertedRows.map (fun row => rowGet row primaryKeyColumn.name)
        (createFindManyResolver storage remap tableInfo tables relations
          (QueryArgs.mk
            (some [(primaryKeyColumn.name, .jobj [("inArray", .jarr insertedIds)])])
            none none none) info).1
  match inner with
  | .error e => .error ⟨e.message⟩
  | .ok rows => .ok rows

/-- Update-many operation resolver (createUpdateManyResolver in the
source): validates a non-empty update payload, compiles the caller
filter, submits the update requesting updated rows back, extracts
primary keys, and re-selects through the find-many resolver with a
primary-key inArray filter and the original requested-field tree. -/
def createUpdateManyResolver (storage : FindManyStorage)
    (updateStorage : Row → Option SQLExpr → Except GraphQLError (List Row))
    (remapSingleInput : Row → Row) (remap : Remap)
    (tableInfo : TableInfo) (tables : List (String × TableInfo))
    (relations : List (String × List (String × TableNamedRelations)))
    (primaryKeyColumn : Column) (whereArg : Option (List (String × JVal)))
    (set : Row) (info : ResolveTree) : Except GraphQLError (List Row) :=
  let inner : Except GraphQLError (List Row) :=
    if set.isEmpty then .error ⟨"No values provided for update"⟩
    else
      let remappedSet := remapSingleInput set
      match buildWhereClause remap tableInfo whereArg with
      | .error e => .error e
      | .ok whereClause =>
        match updateStorage remappedSet whereClause with
        | .error e => .error e
        | .ok updatedRows =>
          let updatedIds := updatedRows.map (fun row => rowGet row primaryKeyColumn.name)
          (createFindManyResolver storage remap tableInfo tables relations
            (QueryArgs.mk
              (some [(primaryKeyColumn.name, .jobj [("inArray", .jarr updatedIds)])])
              none none none) info).1
  match inner with
  | .error e => .error ⟨e.message⟩
  | .ok rows => .ok rows

/-- Capitalize helper from util/case-ops: uppercases the first letter. -/
def capitalize (s : String) : String := s.capitalize

/-- Tag naming which resolver constructor a generated root query field
is bound to in the resolver map: createFindManyResolver or
createFindFirstResolver applied to the named table. -/
inductive ResolverRef where
  | findMany (tableName : String)
  | findFirst (tableName : String)
deriving Repr, DecidableEq

/-- Root query resolver map generation (generateQueries in
buildSchemaSDL/generator/queries/index.ts): per table one find-many
resolver under the key {table}FindMany and one find-first resolver
under {table}FindFirst; a table missing from the drizzle instance
aborts the build. -/
def generateQueries (dbQueryKeys : List String) :
    List (String × TableInfo) → Except String (List (String × ResolverRef))
  | [] => .ok []
  | (tableName, _) :: rest =>
    if dbQueryKeys.contains tableName then
      match generateQueries dbQueryKeys rest with
      | .error e => .error e
      | .ok restQueries =>
        .ok ((tableName ++ "FindMany", .findMany tableName)
          :: (tableName ++ "FindFirst", .findFirst tableName) :: restQueries)
    else
      .error ("Drizzle-GraphQL Error: Table " ++ tableName ++
        " not found in drizzle instance. Did you forget to pass schema to drizzle constructor?")

namespace SchemaGen

/-- Build-scoped tracking state of the generator in
buildSchemaSDL/generator/schema.ts: the module-level customScalars set
and enumDefinitions map, threaded explicitly. -/
structure GenState where
  customScalars : List String
  enumDefinitions : List (String × List String)
deriving Repr, DecidableEq

/-- Empty tracking state at the start of a build. -/
def GenState.empty : GenState := ⟨[], []⟩

/-- Set.add on the customScalars tracking set. -/
def addScalar (st : GenState) (s : String) : GenState :=
  if st.customScalars.contains s then st else ⟨st.customScalars ++ [s], st.enumDefinitions⟩

/-- Guarded Map.set on the enumDefinitions tracking map. -/
def addEnum (st : GenState) (name : String) (values : List String) : GenState :=
  if (slookup st.enumDefinitions name).isSome then st
  else ⟨st.customScalars, st.enumDefinitions ++ [(name, values)]⟩

/-- Test of the allowedNameChars regex on one enum value. -/
def allowedNameChars (s : String) : Bool :=
  s.length > 0 && s.toList.all (fun c => c.isAlphanum || c == '_')

/-- Base-type computation of columnToSDL: the dataType switch, with the
customGraphqlType override winning over everything. -/
def columnBaseSDL (st : GenState) (column : Column) (columnName tableName : String) :
    String × GenState :=
  match column.customGraphqlType with
  | some t => (t, st)
  | none =>
    match column.dataType with
    | .boolean => ("Boolean", st)
    | .json =>
      if column.columnType = some "PgGeometryObject" then
        ("PgGeometryObject", addScalar st "PgGeometryObject")
      else
        ("JSON", addScalar st "JSON")
    | .date => ("Date", addScalar st "Date")
    | .string =>
      match column.enumValues with
      | some (e :: es) =>
        let enumName := capitalize tableName ++ capitalize columnName ++ "Enum"
        (enumName, addEnum st enumName
          ((e :: es).mapIdx (fun index v =>
            if allowedNameChars v then v else "Option" ++ toString index)))
      | _ => ("String", st)
    | .bigint => ("BigInt", addScalar st "BigInt")
    | .number => if column.isIntKind then ("Int", st) else ("Float", st)
    | .buffer => ("[Int!]", st)
    | .array =>
      if column.columnType = some "PgVector" then ("[Float!]", st)
      else if column.columnType = some "PgGeometry" then ("[Float!]", st)
      else
        let scalarName := capitalize tableName ++ capitalize columnName ++ "Array"
        (scalarName, addScalar st scalarName)
    | .custom =>
      match column.columnType with
      | some ct => (ct, addScalar st ct)
      | none =>
        let customScalarName := capitalize tableName ++ capitalize columnName
        (customScalarName, addScalar st customScalarName)

/-- Type mapper of buildSchemaSDL/generator/schema.ts (columnToSDL):
computes the base type and wraps it non-null when the column is notNull
and has neither a default nor a default generator, unless forced
nullable. -/
def columnToSDL (st : GenState) (column : Column) (columnName tableName : String)
    (forceNullable : Bool) : String × GenState :=
  let base := columnBaseSDL st column columnName tableName
  if !forceNullable && column.notNull && !column.hasDefault && !column.defaultFn then
    (base.1 ++ "!", base.2)
  else
    (base.1, base.2)

/-- Root Query field declarations emitted by generateQueryTypeDefs in
buildSchemaSDL/generator/schema.ts: one find-many field per table,
named after the table itself. -/
def generateQueryFields (tables : List (String × TableInfo)) : List String :=
  tables.map (fun tableEntry =>
    let tableName := tableEntry.1
    let typeName := capitalize tableName
    "  " ++ tableName ++ "(where: " ++ typeName ++ "Filters, orderBy: " ++ typeName ++
      "OrderBy, limit: Int, offset: Int): [" ++ typeName ++ "!]!")

/-- Root Query type SDL of buildSchemaSDL/generator/schema.ts. -/
def generateQueryTypeDefs (tables : List (String × TableInfo)) : String :=
  "type Query \x7b\n" ++ String.intercalate "\n" (generateQueryFields tables) ++ "\n\x7d"

end SchemaGen

namespace SchemaGenAlt

/-- Build-scoped tracking state of the second generator variant in the
repository (the schema generator shipped alongside the SDL entry point
with FindMany and FindFirst root fields): adds the requiredFieldFilters
set and the foreignKeyTypes map. -/
structure GenState where
  customScalars : List String
  enumDefinitions : List (String × List String)
  requiredFieldFilters : List String
  foreignKeyTypes : List (String × String)
deriving Repr, DecidableEq

/-- Empty tracking state at the start of a build. -/
def GenState.empty : GenState := ⟨[], [], [], []⟩

/-- Set.add on the customScalars tracking set. -/
def addScalar (st : GenState) (s : String) : GenState :=
  if st.customScalars.contains s then st
  else ⟨st.customScalars ++ [s], st.enumDefinitions, st.requiredFieldFilters, st.foreignKeyTypes⟩

/-- Guarded Map.set on the enumDefinitions tracking map. -/
def addEnum (st : GenState) (name : String) (values : List String) : GenState :=
  if (slookup st.enumDefinitions name).isSome then st
  else ⟨st.customScalars, st.enumDefinitions ++ [(name, values)],
    st.requiredFieldFilters, st.foreignKeyTypes⟩

/-- Base-type computation of the variant columnToSDL: identical switch,
but a foreign key with an inferred type from the foreignKeyTypes map
uses that type when no explicit override is present. -/
def columnBaseSDL (st : GenState) (column : Column) (columnName tableName : String) :
    String × GenState :=
  match column.customGraphqlType with
  | some t => (t, st)
  | none =>
    match slookup st.foreignKeyTypes (tableName ++ "." ++ columnName) with
    | some fkType => (fkType, st)
    | none =>
      match column.dataType with
      | .boolean => ("Boolean", st)
      | .json =>
        if column.columnType = some "PgGeometryObject" then
          ("PgGeometryObject", addScalar st "PgGeometryObject")
        else
          ("JSON", addScalar st "JSON")
      | .date => ("Date", addScalar st "Date")
      | .string =>
        match column.enumValues with
        | some (e :: es) =>
          let enumName := capitalize tableName ++ capitalize columnName ++ "Enum"
          (enumName, addEnum st enumName
            ((e :: es).mapIdx (fun index v =>
              if SchemaGen.allowedNameChars v then v else "Option" ++ toString index)))
        | _ => ("String", st)
      | .bigint => ("BigInt", addScalar st "BigInt")
      | .number => if column.isIntKind then ("Int", st) else ("Float", st)
      | .buffer => ("[Int!]", st)
      | .array =>
        if column.columnType = some "PgVector" then ("[Float!]", st)
        else if column.columnType = some "PgGeometry" then ("[Float!]", st)
        else
          let scalarName := capitalize tableName ++ capitalize columnName ++ "Array"
          (scalarName, addScalar st scalarName)
      | .custom =>
        match column.columnType with
        | some ct => (ct, addScalar st ct)
        | none =>
          let customScalarName := capitalize tableName ++ capitalize columnName
          (customScalarName, addScalar st customScalarName)

/-- Type mapper of the second generator variant (columnToSDL): wraps
the base type non-null whenever the column is notNull, regardless of
defaults; hasDefault and defaultFn only affect the insert input. -/
def columnToSDL (st : GenState) (column : Column) (columnName tableName : String)
    (forceNullable : Bool) : String × GenState :=
  let base := columnBaseSDL st column columnName tableName
  if !forceNullable && column.notNull then
    (base.1 ++ "!", base.2)
  else
    (base.1, base.2)

/-- Root Query field declarations of the variant generateQueryTypeDefs:
a {table}FindMany and a {table}FindFirst field per table. -/
def generateQueryFields (tables : List (String × TableInfo)) : List String :=
  tables.flatMap (fun tableEntry =>
    let tableName := tableEntry.1
    let typeName := capitalize tableName
    ["  " ++ tableName ++ "FindMany(where: " ++ typeName ++ "Filters, orderBy: " ++ typeName ++
        "OrderBy, limit: Int, offset: Int): [" ++ typeName ++ "!]!",
     "  " ++ tableName ++ "FindFirst(where: " ++ typeName ++ "Filters, orderBy: " ++ typeName ++
        "OrderBy): " ++ typeName])

/-- Root Query type SDL of the variant generator. -/
def generateQueryTypeDefs (tables : List (String × TableInfo)) : String :=
  "type Query \x7b\n" ++ String.intercalate "\n" (generateQueryFields tables) ++ "\n\x7d"

end SchemaGenAlt

/-! Concrete fixtures used by the witnesses: a small sqlite-style
schema with a user table, a post table and a comment table, a one
relation user.post and a many relation post.comments, mirroring the
test-server schema shape. -/

/-- Identity value remap used in the concrete examples. -/
def idRemap : Remap := fun v _ _ => v

/-- Primary key column of the user table: text, primaryKey, defaultFn,
notNull. -/
def userIdCol : Column :=
  ⟨"id", .string, some "SQLiteText", none, none, none, true, false, true, true, false⟩

/-- Name column of the user table: text, notNull, no default. -/
def userNameCol : Column :=
  ⟨"name", .string, some "SQLiteText", none, none, none, true, false, false, false, false⟩

/-- Primary key column of the post table. -/
def postIdCol : Column :=
  ⟨"id", .string, some "SQLiteText", none, none, none, true, false, true, true, false⟩

/-- Title column of the post table. -/
def postTitleCol : Column :=
  ⟨"title", .string, some "SQLiteText", none, none, none, true, false, false, false, false⟩

/-- Primary key column of the comment table. -/
def commentIdCol : Column :=
  ⟨"id", .string, some "SQLiteText", none, none, none, true, false, true, true, false⟩

/-- Text column of the comment table. -/
def commentTextCol : Column :=
  ⟨"text", .string, some "SQLiteText", none, none, none, true, false, false, false, false⟩

/-- TableInfo of the user table. -/
def userTable : TableInfo := ⟨"user", [("id", userIdCol), ("name", userNameCol)]⟩

/-- TableInfo of the post table. -/
def postTable : TableInfo := ⟨"post", [("id", postIdCol), ("title", postTitleCol)]⟩

/-- TableInfo of the comment table. -/
def commentTable : TableInfo := ⟨"comment", [("id", commentIdCol), ("text", commentTextCol)]⟩

/-- Table map of the fixture schema. -/
def tablesFx : List (String × TableInfo) :=
  [("user", userTable), ("post", postTable), ("comment", commentTable)]

/-- Relation map of the fixture schema: user has a one relation named
post to the post table, post has a many relation named comments to the
comment table. -/
def relationsFx : List (String × List (String × TableNamedRelations)) :=
  [("user", [("post", ⟨"post", true⟩)]), ("post", [("comments", ⟨"comment", false⟩)])]

/-- Empty argument set of a requested field. -/
def noArgs : QueryArgs := ⟨none, none, none, none⟩

/-- Leaf node of a requested-field tree. -/
def leafRT : ResolveTree := .mk noArgs []

/-- Requested sub-tree for the comments relation selecting text. -/
def commentsRT : ResolveTree := .mk noArgs [("Comment", [("text", leafRT)])]

/-- Requested sub-tree for the post relation selecting title and the
comments relation. -/
def postRT : ResolveTree := .mk noArgs [("Post", [("title", leafRT), ("comments", commentsRT)])]

/-- Root requested-field tree: user root field selecting id, the post
relation and under it the comments relation. -/
def userInfoRT : ResolveTree := .mk noArgs [("User", [("id", leafRT), ("post", postRT)])]

/-- Fixture storage for findMany: returns no rows. -/
def fxStorage : FindManyStorage := fun _ => .ok []

/-- Fixture storage for findFirst: returns no row. -/
def fxStorageFirst : FindFirstStorage := fun _ => .ok none

/-- The single nested fetch plan compiled from userInfoRT against the
fixture schema: two levels of child plans, one per requested relation. -/
def fxPlan : FetchPlan :=
  .mk ["id"] none none none none
    (some [("post", .mk ["title"] none none none none
      (some [("comments", .mk ["text"] none none none none none)]))])

end DrizzleGraphql

namespace DrizzleGraphql

/-- Truthiness of the operators.OR check in extractFiltersColumn: OR
present with a non-empty array value. -/
def orBranchActive (entries : List (String × JVal)) : Bool :=
  match lookupJ entries "OR" with
  | some (.jarr (_ :: _)) => true
  | _ => false

/-- C3: a table-level filter with a non-empty OR key together with at
least one other key compiles to a validation error naming the table,
and a column-level operator object with a non-empty OR together with
any other entry compiles to a validation error naming the column. -/
theorem c3_or_exclusivity (remap : Remap) (tableInfo : TableInfo) (column : Column)
    (columnName : String) (wentries oentries : List (String × JVal))
    (v1 : JVal) (vs1 : List JVal) (v2 : JVal) (vs2 : List JVal)
    (hw : lookupJ wentries "OR" = some (.jarr (v1 :: vs1))) (hwlen : wentries.length > 1)
    (ho : lookupJ oentries "OR" = some (.jarr (v2 :: vs2))) (holen : oentries.length > 1) :
    buildWhereClause remap tableInfo (some wentries) =
      .error ⟨"WHERE " ++ tableInfo.name ++ ": Cannot specify both fields and \x27OR\x27 in table filters!"⟩
    ∧ extractFiltersColumn remap column columnName oentries =
      .error ⟨"WHERE " ++ columnName ++ ": Cannot specify both fields and \x27OR\x27 in column operators!"⟩ := by
  have hwne : wentries.isEmpty = false := by
    cases wentries
    · simp at hwlen
    · simp
  have hone : oentries.isEmpty = false := by
    cases oentries
    · simp at holen
    · simp
  constructor
  · rw [buildWhereClause]
    simp only [hwne, Bool.false_eq_true, if_false, hwlen, if_true]
    split
    · rfl
    · rename_i hcatch
      exact absurd hw (by simp_all)
  · rw [extractFiltersColumn]
    simp only [hone, Bool.false_eq_true, if_false, holen, if_true]
    split
    · rfl
    · rename_i hcatch
      exact absurd ho (by simp_all)

/-- C3 witness: the spec example filter with a sibling field and OR at
the same level, at table and at column level. -/
theorem c3_witness :
    buildWhereClause idRemap userTable
      (some [("name", .jobj [("eq", .jstr "Bob")]),
             ("OR", .jarr [.jobj [("name", .jobj [("eq", .jstr "Ann")])]])]) =
      .error ⟨"WHERE user: Cannot specify both fields and \x27OR\x27 in table filters!"⟩
    ∧ extractFiltersColumn idRemap userNameCol "name"
      [("eq", .jstr "Bob"), ("OR", .jarr [.jobj [("eq", .jstr "Ann")]])] =
      .error ⟨"WHERE name: Cannot specify both fields and \x27OR\x27 in column operators!"⟩ :=
  c3_or_exclusivity idRemap userTable userNameCol "name"
    [("name", .jobj [("eq", .jstr "Bob")]),
     ("OR", .jarr [.jobj [("name", .jobj [("eq", .jstr "Ann")])]])]
    [("eq", .jstr "Bob"), ("OR", .jarr [.jobj [("eq", .jstr "Ann")]])]
    (.jobj [("name", .jobj [("eq", .jstr "Ann")])]) [] (.jobj [("eq", .jstr "Ann")]) []
    (by rfl) (by decide) (by rfl) (by decide)

theorem extractFiltersLoop_emptyArray_error (remap : Remap) (column : Column)
    (columnName : String) :
    ∀ (entries : List (String × JVal)) (acc : List SQLExpr),
    (("inArray", JVal.jarr []) ∈ entries ∨ ("notInArray", JVal.jarr []) ∈ entries) →
    ∃ e, extractFiltersLoop remap column columnName entries acc = .error e := by
  intro entries
  induction entries with
  | nil => intro acc hmem; simp at hmem
  | cons p rest ih =>
    intro acc hmem
    obtain ⟨opn, opv⟩ := p
    by_cases hbad : (opn = "inArray" ∨ opn = "notInArray") ∧ opv = JVal.jarr []
    · obtain ⟨hop, hval⟩ := hbad
      subst hval
      rcases hop with hop | hop <;> subst hop <;> exact ⟨_, rfl⟩
    · have hrest : ("inArray", JVal.jarr []) ∈ rest ∨ ("notInArray", JVal.jarr []) ∈ rest := by
        rcases hmem with hm | hm
        · rcases List.mem_cons.mp hm with he | he
          · exfalso
            apply hbad
            have h1 : opn = "inArray" := (congrArg Prod.fst he.symm)
            have h2 : opv = JVal.jarr [] := (congrArg Prod.snd he.symm)
            exact ⟨Or.inl h1, h2⟩
          · exact Or.inl he
        · rcases List.mem_cons.mp hm with he | he
          · exfalso
            apply hbad
            have h1 : opn = "notInArray" := (congrArg Prod.fst he.symm)
            have h2 : opv = JVal.jarr [] := (congrArg Prod.snd he.symm)
            exact ⟨Or.inr h1, h2⟩
          · exact Or.inr he
      rw [extractFiltersLoop]
      cases hskip : skipValue opv with
      | true =>
        simp only [hskip, if_true]
        exact ih acc hrest
      | false =>
        simp only [hskip, Bool.false_eq_true, if_false]
        rcases hco : compileOperator remap column columnName opn opv with e | ov
        · exact ⟨e, rfl⟩
        · rcases ov with _ | v
          · exact ih acc hrest
          · exact ih (acc ++ [v]) hrest

/-- C4: inArray and notInArray with an empty operand list raise a
validation error naming the column and the operator, a non-empty
operand list compiles to the corresponding membership predicate over
the column, and any filter containing an empty-list membership operator
outside an active OR branch raises an error rather than compiling to a
vacuous predicate. -/
theorem c4_membership_operators (remap : Remap) (column : Column) (columnName : String)
    (vs : List JVal) (entries : List (String × JVal))
    (hor : orBranchActive entries = false)
    (hmem : ("inArray", JVal.jarr []) ∈ entries ∨ ("notInArray", JVal.jarr []) ∈ entries) :
    (extractFiltersColumn remap column columnName [("inArray", .jarr vs)] =
      if vs.isEmpty then
        .error ⟨"WHERE " ++ columnName ++ ": Unable to use operator inArray with an empty array!"⟩
      else
        .ok (some (.inArrayE column (vs.map (fun val => remap val column columnName)))))
    ∧ (extractFiltersColumn remap column columnName [("notInArray", .jarr vs)] =
      if vs.isEmpty then
        .error ⟨"WHERE " ++ columnName ++ ": Unable to use operator notInArray with an empty array!"⟩
      else
        .ok (some (.notInArrayE column (vs.map (fun val => remap val column columnName)))))
    ∧ (∃ e, extractFiltersColumn remap column columnName entries = .error e) := by
  refine ⟨?_, ?_, ?_⟩
  · rw [extractFiltersColumn]
    cases vs with
    | nil => rfl
    | cons a as => rfl
  · rw [extractFiltersColumn]
    cases vs with
    | nil => rfl
    | cons a as => rfl
  · have hne : entries.isEmpty = false := by
      rcases hmem with hm | hm <;> (cases entries
                                    · simp at hm
                                    · simp)
    obtain ⟨e, he⟩ := extractFiltersLoop_emptyArray_error remap column columnName entries [] hmem
    rw [extractFiltersColumn]
    simp only [hne, Bool.false_eq_true, if_false]
    split
    · rename_i v vs2 hL
      exfalso
      rw [orBranchActive, hL] at hor
      simp at hor
    · rw [he]
      exact ⟨e, rfl⟩

/-- C4 witness: the spec examples, an empty inArray errors and a
two-element inArray compiles to membership over the column. -/
theorem c4_witness :
    extractFiltersColumn idRemap userIdCol "id" [("inArray", .jarr [])] =
      .error ⟨"WHERE id: Unable to use operator inArray with an empty array!"⟩
    ∧ extractFiltersColumn idRemap userIdCol "id" [("inArray", .jarr [.jstr "a", .jstr "b"])] =
      .ok (some (.inArrayE userIdCol [.jstr "a", .jstr "b"])) := by
  have h1 := c4_membership_operators idRemap userIdCol "id" []
    [("inArray", JVal.jarr [])] (by rfl) (Or.inl (by simp))
  have h2 := c4_membership_operators idRemap userIdCol "id" [.jstr "a", .jstr "b"]
    [("inArray", JVal.jarr [])] (by rfl) (Or.inl (by simp))
  exact ⟨h1.1, h2.1⟩

/-- Example column that is required and carries a default value: text
notNull with hasDefault. -/
def defaultedCol : Column :=
  ⟨"name", .string, some "SQLiteText", none, none, none, true, true, false, false, false⟩

/-- C5 counterexample: the claim says a required column with a default
is emitted with the nullable base type, but the second type-mapper
variant in the repository emits the non-null wrapped type for a notNull
column that has a default. -/
theorem c5_counterexample :
    (SchemaGenAlt.columnToSDL SchemaGenAlt.GenState.empty defaultedCol "name" "user" false).1 =
      "String!"
    ∧ (SchemaGenAlt.columnToSDL SchemaGenAlt.GenState.empty defaultedCol "name" "user" false).1 ≠
      "String"
    ∧ defaultedCol.notNull = true ∧ defaultedCol.hasDefault = true := by
  refine ⟨rfl, ?_, rfl, rfl⟩
  intro h
  simp [SchemaGenAlt.columnToSDL, SchemaGenAlt.columnBaseSDL, defaultedCol, slookup,
    SchemaGenAlt.GenState.empty] at h

/-- C5 amended: the type mapper of
buildSchemaSDL/generator/schema.ts wraps the base type non-null exactly
when the column is notNull with neither a default nor a default
generator, while the second generator variant wraps non-null whenever
the column is notNull, regardless of defaults. -/
theorem c5_type_mapper_nullability (st : SchemaGen.GenState) (st2 : SchemaGenAlt.GenState)
    (column : Column) (columnName tableName : String) :
    (SchemaGen.columnToSDL st column columnName tableName false).1 =
      (if column.notNull && !column.hasDefault && !column.defaultFn then
        (SchemaGen.columnBaseSDL st column columnName tableName).1 ++ "!"
      else
        (SchemaGen.columnBaseSDL st column columnName tableName).1)
    ∧ (SchemaGenAlt.columnToSDL st2 column columnName tableName false).1 =
      (if column.notNull then
        (SchemaGenAlt.columnBaseSDL st2 column columnName tableName).1 ++ "!"
      else
        (SchemaGenAlt.columnBaseSDL st2 column columnName tableName).1) := by
  constructor
  · rw [SchemaGen.columnToSDL]
    cases hn : column.notNull <;> cases hd : column.hasDefault <;> cases hf : column.defaultFn <;>
      simp [hn, hd, hf]
  · rw [SchemaGenAlt.columnToSDL]
    cases hn : column.notNull <;> simp [hn]

/-- C6: against a schema with the single table user, the SDL generator
of buildSchemaSDL/generator/schema.ts declares only a find-many root
field named user and no find-first field, while the resolver map
registers its resolvers under userFindMany and userFindFirst, the keys
the repository test suite queries; the second generator variant
declares exactly those two fields. -/
theorem c6_query_surface_mismatch :
    SchemaGen.generateQueryFields [("user", userTable)] =
      ["  user(where: UserFilters, orderBy: UserOrderBy, limit: Int, offset: Int): [User!]!"]
    ∧ generateQueries ["user"] [("user", userTable)] =
      .ok [("userFindMany", .findMany "user"), ("userFindFirst", .findFirst "user")]
    ∧ SchemaGenAlt.generateQueryFields [("user", userTable)] =
      ["  userFindMany(where: UserFilters, orderBy: UserOrderBy, limit: Int, offset: Int): [User!]!",
       "  userFindFirst(where: UserFilters, orderBy: UserOrderBy): User"]
    ∧ "user" ∉ ["userFindMany", "userFindFirst"] := by
  refine ⟨rfl, rfl, rfl, ?_⟩
  decide

theorem insertByPriority_perm (x : String × OrderByField) (l : List (String × OrderByField)) :
    (insertByPriority x l).Perm (x :: l) := by
  induction l with
  | nil => simp [insertByPriority]
  | cons y ys ih =>
    rw [insertByPriority]
    by_cases hc : x.2.priority ≤ y.2.priority
    · rw [if_pos hc]
    · rw [if_neg hc]
      exact (ih.cons y).trans (List.Perm.swap x y ys)

theorem insertByPriority_pairwise (x : String × OrderByField) (l : List (String × OrderByField))
    (h : List.Pairwise (fun a b => a.2.priority ≤ b.2.priority) l) :
    List.Pairwise (fun a b => a.2.priority ≤ b.2.priority) (insertByPriority x l) := by
  induction l with
  | nil => simp [insertByPriority]
  | cons y ys ih =>
    rw [insertByPriority]
    rcases List.pairwise_cons.mp h with ⟨hy, hys⟩
    by_cases hc : x.2.priority ≤ y.2.priority
    · rw [if_pos hc]
      refine List.pairwise_cons.mpr ⟨?_, h⟩
      intro b hb
      rcases List.mem_cons.mp hb with hb1 | hb1
      · subst hb1
        exact hc
      · exact le_trans hc (hy b hb1)
    · rw [if_neg hc]
      refine List.pairwise_cons.mpr ⟨?_, ih hys⟩
      intro b hb
      have hmem := (insertByPriority_perm x ys).mem_iff.mp hb
      rcases List.mem_cons.mp hmem with hb1 | hb1
      · subst hb1
        omega
      · exact hy b hb1

theorem sortByPriority_perm (l : List (String × OrderByField)) : (sortByPriority l).Perm l := by
  induction l with
  | nil => simp [sortByPriority]
  | cons x xs ih =>
    exact (insertByPriority_perm x (sortByPriority xs)).trans (ih.cons x)

theorem sortByPriority_pairwise (l : List (String × OrderByField)) :
    List.Pairwise (fun a b => a.2.priority ≤ b.2.priority) (sortByPriority l) := by
  induction l with
  | nil => simp [sortByPriority]
  | cons x xs ih => exact insertByPriority_pairwise x (sortByPriority xs) ih

theorem orderLoop_filter (tableInfo : TableInfo) (l : List (String × OrderByField)) :
    orderLoop tableInfo l =
      orderLoop tableInfo (l.filter (fun e => (slookup tableInfo.columns e.1).isSome)) := by
  induction l with
  | nil => rfl
  | cons e rest ih =>
    cases hc : slookup tableInfo.columns e.1 with
    | none => simp [orderLoop, hc, List.filter_cons, ih]
    | some c => simp [orderLoop, hc, List.filter_cons, ih]

theorem eq_of_perm_of_strictSorted {α : Type} (key : α → Int) :
    ∀ {l1 l2 : List α}, l1.Perm l2 →
    List.Pairwise (fun a b => key a < key b) l1 →
    List.Pairwise (fun a b => key a < key b) l2 → l1 = l2 := by
  intro l1 l2 hperm h1 h2
  haveI : IsAntisymm α (fun a b => key a < key b) :=
    ⟨fun a b hab hba => absurd (lt_trans hab hba) (lt_irrefl _)⟩
  exact List.eq_of_perm_of_sorted hperm h1 h2

/-- C7 amended: the order compiler sorts the entries ascending by
priority with a stable sort, drops entries naming a column absent from
the table, compiles an empty or absent input to no explicit order, and
the compiled order is independent of the order in which the entries
were supplied whenever the priorities are pairwise distinct; with equal
priorities the stable sort preserves the supplied order. -/
theorem c7_order_compiler (tableInfo : TableInfo) (l : List (String × OrderByField)) :
    buildOrderByClause tableInfo none = none
    ∧ buildOrderByClause tableInfo (some []) = none
    ∧ (∀ l2, l.Perm l2 → (l.map (fun e => e.2.priority)).Nodup →
        buildOrderByClause tableInfo (some l) = buildOrderByClause tableInfo (some l2))
    ∧ (∀ clauses, buildOrderByClause tableInfo (some l) = some clauses →
        ∃ kept, kept.Perm (l.filter (fun e => (slookup tableInfo.columns e.1).isSome))
          ∧ List.Pairwise (fun a b => a.2.priority ≤ b.2.priority) kept
          ∧ clauses = orderLoop tableInfo kept) := by
  have hstrict : ∀ (m : List (String × OrderByField)), m.Perm l →
      (l.map (fun e => e.2.priority)).Nodup →
      List.Pairwise (fun a b => a.2.priority ≤ b.2.priority) m →
      List.Pairwise (fun a b => a.2.priority < b.2.priority) m := by
    intro m hm hnodup hle
    have hnodupm : (m.map (fun e => e.2.priority)).Nodup :=
      ((hm.map (fun e => e.2.priority)).nodup_iff).mpr hnodup
    have hne : List.Pairwise (fun a b => a.2.priority ≠ b.2.priority) m :=
      List.pairwise_map.mp hnodupm
    exact (hle.and hne).imp (fun h => lt_of_le_of_ne h.1 h.2)
  refine ⟨rfl, rfl, ?_, ?_⟩
  · intro l2 hperm hnodup
    have hsorteq : sortByPriority l = sortByPriority l2 := by
      have hp1 := sortByPriority_perm l
      have hp2 := sortByPriority_perm l2
      have hperm12 : (sortByPriority l).Perm (sortByPriority l2) :=
        hp1.trans (hperm.trans hp2.symm)
      refine eq_of_perm_of_strictSorted (fun e => e.2.priority) hperm12
        (hstrict _ hp1 hnodup (sortByPriority_pairwise l))
        (hstrict _ (hp2.trans hperm.symm) hnodup (sortByPriority_pairwise l2))
    rcases l with _ | ⟨x, xs⟩
    · have hl2 : l2 = [] := hperm.symm.eq_nil
      subst hl2
      rfl
    · rcases l2 with _ | ⟨y, ys⟩
      · exact absurd hperm.eq_nil (by simp)
      · rw [buildOrderByClause, buildOrderByClause]
        simp only [List.isEmpty_cons, Bool.false_eq_true, if_false]
        rw [hsorteq]
  · intro clauses hcl
    rcases l with _ | ⟨x, xs⟩
    · simp [buildOrderByClause] at hcl
    · rw [buildOrderByClause] at hcl
      simp only [List.isEmpty_cons, Bool.false_eq_true, if_false] at hcl
      by_cases hE : (orderLoop tableInfo (sortByPriority (x :: xs))).isEmpty
      · simp only [hE, if_true] at hcl
        cases hcl
      · simp only [hE, Bool.false_eq_true, if_false, Option.some.injEq] at hcl
        refine ⟨(sortByPriority (x :: xs)).filter
          (fun e => (slookup tableInfo.columns e.1).isSome), ?_, ?_, ?_⟩
        · exact (sortByPriority_perm (x :: xs)).filter _
        · exact List.Pairwise.sublist (List.filter_sublist _) (sortByPriority_pairwise _)
        · rw [← hcl, orderLoop_filter]

/-- C7 counterexample: two supplies of the same orderBy entries with
equal priorities in different orders compile to different sort key
sequences, so the compiled order is not independent of the supplied
order for every input. -/
theorem c7_counterexample :
    buildOrderByClause userTable
      (some [("id", ⟨"asc", 1⟩), ("name", ⟨"asc", 1⟩)]) ≠
      buildOrderByClause userTable
        (some [("name", ⟨"asc", 1⟩), ("id", ⟨"asc", 1⟩)])
    ∧ List.Perm [("id", (⟨"asc", 1⟩ : OrderByField)), ("name", ⟨"asc", 1⟩)]
        [("name", ⟨"asc", 1⟩), ("id", ⟨"asc", 1⟩)] := by
  constructor
  · decide
  · decide

/-- C7 witness: the spec example with distinct priorities compiles to
name DESC, id ASC independently of the supplied element order. -/
theorem c7_witness :
    buildOrderByClause userTable (some [("name", ⟨"desc", 1⟩), ("id", ⟨"asc", 2⟩)]) =
      buildOrderByClause userTable (some [("id", ⟨"asc", 2⟩), ("name", ⟨"desc", 1⟩)])
    ∧ buildOrderByClause userTable (some [("id", ⟨"asc", 2⟩), ("name", ⟨"desc", 1⟩)]) =
      some [.descC userNameCol, .ascC userIdCol] := by
  have h := (c7_order_compiler userTable [("name", ⟨"desc", 1⟩), ("id", ⟨"asc", 2⟩)]).2.2.1
    [("id", ⟨"asc", 2⟩), ("name", ⟨"desc", 1⟩)] (by decide) (by decide)
  exact ⟨h, by decide⟩

theorem lookupJ_append_middle (pre post : List (String × JVal)) (op : String) (v : JVal)
    (key : String) (hop : op ≠ key) :
    lookupJ (pre ++ (op, v) :: post) key = lookupJ (pre ++ post) key := by
  induction pre with
  | nil => simp [lookupJ, hop]
  | cons p rest ih =>
    obtain ⟨k, w⟩ := p
    by_cases hk : k = key <;> simp [lookupJ, hk, ih]

theorem lookupJ_mem {l : List (String × JVal)} {key : String} {v : JVal}
    (h : lookupJ l key = some v) : (key, v) ∈ l := by
  induction l with
  | nil => simp [lookupJ] at h
  | cons p rest ih =>
    obtain ⟨k, w⟩ := p
    by_cases hk : k = key
    · subst hk
      simp [lookupJ] at h
      subst h
      exact List.mem_cons_self _ _
    · simp [lookupJ, hk] at h
      exact List.mem_cons_of_mem _ (ih h)

theorem extractFiltersLoop_skip (remap : Remap) (column : Column) (columnName : String)
    (pre post : List (String × JVal)) (op : String) (v : JVal) (hv : skipValue v = true) :
    ∀ acc, extractFiltersLoop remap column columnName (pre ++ (op, v) :: post) acc =
      extractFiltersLoop remap column columnName (pre ++ post) acc := by
  induction pre with
  | nil =>
    intro acc
    rw [List.nil_append, List.nil_append, extractFiltersLoop, if_pos hv]
  | cons p rest ih =>
    intro acc
    obtain ⟨k, w⟩ := p
    rw [List.cons_append, List.cons_append, extractFiltersLoop, extractFiltersLoop]
    by_cases hs : skipValue w = true
    · rw [if_pos hs, if_pos hs]
      exact ih acc
    · rw [if_neg hs, if_neg hs]
      cases hco : compileOperator remap column columnName k w with
      | error e => rfl
      | ok ov =>
        cases ov with
        | none => exact ih acc
        | some u => exact ih (acc ++ [u])

theorem extractFiltersLoop_allSkip (remap : Remap) (column : Column) (columnName : String) :
    ∀ (entries : List (String × JVal)) (acc : List SQLExpr),
    (∀ p ∈ entries, skipValue p.2 = true) →
    extractFiltersLoop remap column columnName entries acc = .ok acc := by
  intro entries
  induction entries with
  | nil => intro acc _; rfl
  | cons p rest ih =>
    intro acc hall
    obtain ⟨k, w⟩ := p
    have hw : skipValue w = true := hall (k, w) (List.mem_cons_self _ _)
    rw [extractFiltersLoop, if_pos hw]
    exact ih acc (fun q hq => hall q (List.mem_cons_of_mem _ hq))

theorem extractFiltersColumn_allSkip (remap : Remap) (column : Column) (columnName : String)
    (entries : List (String × JVal)) (hall : ∀ p ∈ entries, skipValue p.2 = true) :
    extractFiltersColumn remap column columnName entries = .ok none := by
  rw [extractFiltersColumn]
  cases hemp : entries.isEmpty with
  | true => rw [if_pos rfl]
  | false =>
    rw [if_neg (by simp [hemp])]
    have hloop := extractFiltersLoop_allSkip remap column columnName entries [] hall
    cases hL : lookupJ entries "OR" with
    | none => rw [hloop]; rfl
    | some v0 =>
      have hv0 : skipValue v0 = true := hall ("OR", v0) (lookupJ_mem hL)
      cases v0 with
      | jnull => rw [hloop]; rfl
      | jbool b => cases b with
        | false => rw [hloop]; rfl
        | true => simp [skipValue] at hv0
      | jstr s => simp [skipValue] at hv0
      | jint n => simp [skipValue] at hv0
      | jarr elems => simp [skipValue] at hv0
      | jobj flds => simp [skipValue] at hv0

theorem extractFiltersColumn_notOr (remap : Remap) (column : Column) (columnName : String)
    (entries : List (String × JVal)) (hne : entries.isEmpty = false)
    (hor : orBranchActive entries = false) :
    extractFiltersColumn remap column columnName entries =
      match extractFiltersLoop remap column columnName entries [] with
      | .error e => .error e
      | .ok variants => .ok (combineAnd variants) := by
  rw [extractFiltersColumn]
  rw [if_neg (by simp [hne])]
  split
  · rename_i x xs heq
    rw [orBranchActive, heq] at hor
    simp at hor
  · rfl

theorem whereLoop_allTrivial (remap : Remap) (tableInfo : TableInfo) :
    ∀ (wentries : List (String × JVal)) (acc : List SQLExpr),
    (∀ p ∈ wentries, p.2 = JVal.jnull ∨
      ∃ ops, p.2 = JVal.jobj ops ∧ ∀ q ∈ ops, skipValue q.2 = true) →
    whereLoop remap tableInfo wentries acc = .ok acc := by
  intro wentries
  induction wentries with
  | nil => intro acc _; rfl
  | cons p rest ih =>
    intro acc htriv
    obtain ⟨k, w⟩ := p
    have hrest : ∀ p ∈ rest, p.2 = JVal.jnull ∨
        ∃ ops, p.2 = JVal.jobj ops ∧ ∀ q ∈ ops, skipValue q.2 = true :=
      fun q hq => htriv q (List.mem_cons_of_mem _ hq)
    rw [whereLoop]
    by_cases hk : k = "OR"
    · rw [if_pos hk]
      exact ih acc hrest
    · rw [if_neg hk]
      have hstep : whereEntryStep remap tableInfo k w = .ok none := by
        rcases htriv (k, w) (List.mem_cons_self _ _) with hw | ⟨ops, hw, hops⟩
        · simp only at hw
          subst hw
          rfl
        · simp only at hw
          subst hw
          rw [whereEntryStep]
          cases hops2 : ops.isEmpty with
          | true => rfl
          | false =>
            rw [if_neg (by simp [hops2])]
            cases hcol : slookup tableInfo.columns k with
            | none => rfl
            | some column => exact extractFiltersColumn_allSkip remap column k ops hops
      rw [hstep]
      exact ih acc hrest

/-- C8: an operator entry whose value is null or false contributes no
predicate, its deletion does not change the compiled filter outside an
active OR branch, a column operator object whose entries are all null
or false compiles to no filter, and a table filter whose column entries
are all null, empty or null-and-false-valued compiles to no filter,
never to a vacuous predicate. -/
theorem c8_null_false_skipped (remap : Remap) (tableInfo : TableInfo) (column : Column)
    (columnName : String) (pre post : List (String × JVal)) (op : String) (v : JVal)
    (entries wentries : List (String × JVal))
    (hop : op ≠ "OR") (hv : skipValue v = true)
    (hor : orBranchActive (pre ++ post) = false)
    (hall : ∀ p ∈ entries, skipValue p.2 = true)
    (htriv : ∀ p ∈ wentries, p.2 = JVal.jnull ∨
      ∃ ops, p.2 = JVal.jobj ops ∧ ∀ q ∈ ops, skipValue q.2 = true) :
    extractFiltersColumn remap column columnName (pre ++ (op, v) :: post) =
      extractFiltersColumn remap column columnName (pre ++ post)
    ∧ extractFiltersColumn remap column columnName entries = .ok none
    ∧ buildWhereClause remap tableInfo (some wentries) = .ok none := by
  refine ⟨?_, extractFiltersColumn_allSkip remap column columnName entries hall, ?_⟩
  · have hlk := lookupJ_append_middle pre post op v "OR" hop
    have hloop := extractFiltersLoop_skip remap column columnName pre post op v hv
    have horL : orBranchActive (pre ++ (op, v) :: post) = false := by
      rw [orBranchActive, hlk]
      rw [orBranchActive] at hor
      exact hor
    by_cases hpp : pre ++ post = []
    · obtain ⟨hpre, hpost⟩ := List.append_eq_nil.mp hpp
      subst hpre
      subst hpost
      have h1 := hloop []
      simp only [List.nil_append, List.append_nil] at h1 horL ⊢
      rw [extractFiltersColumn_notOr remap column columnName [(op, v)] (by simp) horL]
      rw [h1]
      rw [extractFiltersColumn]
      rfl
    · have hLne : (pre ++ (op, v) :: post).isEmpty = false := by cases pre <;> simp
      have hRne : (pre ++ post).isEmpty = false := by
        cases hppl : pre ++ post with
        | nil => exact absurd hppl hpp
        | cons a as => rfl
      rw [extractFiltersColumn_notOr remap column columnName _ hLne horL,
        extractFiltersColumn_notOr remap column columnName _ hRne hor,
        hloop []]
  · rw [buildWhereClause]
    cases hemp : wentries.isEmpty with
    | true => rw [if_pos rfl]
    | false =>
      rw [if_neg (by simp [hemp])]
      have hloop := whereLoop_allTrivial remap tableInfo wentries [] htriv
      cases hL : lookupJ wentries "OR" with
      | none => rw [hloop]; rfl
      | some v0 =>
        rcases htriv ("OR", v0) (lookupJ_mem hL) with hw | ⟨ops, hw, _⟩
        · simp only at hw
          subst hw
          rw [hloop]
          rfl
        · simp only at hw
          subst hw
          rw [hloop]
          rfl

/-- C8 witness: deleting a null-valued operator entry leaves the
compiled filter unchanged, an all-null-or-false operator object and a
table filter of such objects compile to no filter. -/
theorem c8_witness :
    extractFiltersColumn idRemap userNameCol "name"
        [("eq", .jstr "Bob"), ("ne", .jnull)] =
      extractFiltersColumn idRemap userNameCol "name" [("eq", .jstr "Bob")]
    ∧ extractFiltersColumn idRemap userNameCol "name"
        [("eq", .jnull), ("like", .jbool false)] = .ok none
    ∧ buildWhereClause idRemap userTable (some [("name", .jobj [("eq", .jnull)])]) = .ok none := by
  have h := c8_null_false_skipped idRemap userTable userNameCol "name"
    [("eq", JVal.jstr "Bob")] [] "ne" JVal.jnull
    [("eq", JVal.jnull), ("like", JVal.jbool false)]
    [("name", JVal.jobj [("eq", JVal.jnull)])]
    (by decide) rfl rfl (by decide)
    (by
      intro p hp
      simp only [List.mem_singleton] at hp
      subst hp
      exact Or.inr ⟨[("eq", JVal.jnull)], rfl, by decide⟩)
  exact h

theorem relationStep_name (remap : Remap)
    (relationMap : List (String × List (String × TableNamedRelations)))
    (tables : List (String × TableInfo)) (fields : List (String × ResolveTree))
    (relName : String) (relInfo : TableNamedRelations) (entry : String × FetchPlan)
    (hok : relationStep remap relationMap tables fields relName relInfo = .ok (some entry)) :
    entry.1 = relName := by
  rw [relationStep] at hok
  split at hok
  · simp at hok
  · split at hok
    · simp at hok
    · split at hok
      · simp at hok
      · split at hok
        · simp at hok
        · simp only [Except.ok.injEq, Option.some.injEq] at hok
          rw [← hok]

theorem relationStep_spec (remap : Remap)
    (relationMap : List (String × List (String × TableNamedRelations)))
    (tables : List (String × TableInfo)) (fields : List (String × ResolveTree))
    (relName : String) (relInfo : TableNamedRelations) (rt : ResolveTree) (tt : TableInfo)
    (hf : slookup fields relName = some rt)
    (ht : slookup tables relInfo.targetTableName = some tt)
    (res : Option (String × FetchPlan))
    (hok : relationStep remap relationMap tables fields relName relInfo = .ok res) :
    ∃ child, res = some (relName, child)
      ∧ child.columns = extractSelectedColumns (collectAllFields rt.fieldsByTypeName) tt
      ∧ ∃ w2, extractRelationsParams remap relationMap tables relInfo.targetTableName
          (collectAllFields rt.fieldsByTypeName) = .ok w2 ∧ child.withRel = w2 := by
  rw [relationStep] at hok
  split at hok
  · rename_i heq
    rw [hf] at heq
    cases heq
  · rename_i relationField heq
    rw [hf] at heq
    injection heq with heq2
    subst heq2
    split at hok
    · rename_i heqt
      rw [ht] at heqt
      cases heqt
    · rename_i targetTable heqt
      rw [ht] at heqt
      injection heqt with heqt2
      subst heqt2
      split at hok
      · cases hok
      · rename_i whereC hwc
        split at hok
        · cases hok
        · rename_i nestedWith hnw
          simp only [Except.ok.injEq] at hok
          subst hok
          exact ⟨_, rfl, rfl, nestedWith, hnw, rfl⟩

theorem relationsLoop_spec (remap : Remap)
    (relationMap : List (String × List (String × TableNamedRelations)))
    (tables : List (String × TableInfo)) (fields : List (String × ResolveTree)) :
    ∀ (rels : List (String × TableNamedRelations)) (args : List (String × FetchPlan)),
    relationsLoop remap relationMap tables fields rels = .ok args →
    (rels.map Prod.fst).Nodup →
    ∀ relName relInfo, (relName, relInfo) ∈ rels →
    ∀ rt, slookup fields relName = some rt →
    ∀ tt, slookup tables relInfo.targetTableName = some tt →
    ∃ child, slookup args relName = some child
      ∧ child.columns = extractSelectedColumns (collectAllFields rt.fieldsByTypeName) tt
      ∧ ∃ w2, extractRelationsParams remap relationMap tables relInfo.targetTableName
          (collectAllFields rt.fieldsByTypeName) = .ok w2 ∧ child.withRel = w2 := by
  intro rels
  induction rels with
  | nil =>
    intro args _ _ relName relInfo hmem
    simp at hmem
  | cons p rest ih =>
    intro args hok hnodup relName relInfo hmem rt hf tt ht
    obtain ⟨hn, hi⟩ := p
    have hnodup2 : (rest.map Prod.fst).Nodup := (List.nodup_cons.mp hnodup).2
    have hnotin : hn ∉ rest.map Prod.fst := (List.nodup_cons.mp hnodup).1
    rw [relationsLoop] at hok
    rcases List.mem_cons.mp hmem with he | he
    · injection he with h1 h2
      subst h1
      subst h2
      rcases hstep : relationStep remap relationMap tables fields relName relInfo with e | res
      · rw [hstep] at hok
        simp at hok
      · rw [hstep] at hok
        obtain ⟨child, hchild, hcols, w2, hw2, hwr⟩ :=
          relationStep_spec remap relationMap tables fields relName relInfo rt tt hf ht res hstep
        subst hchild
        rcases hrl : relationsLoop remap relationMap tables fields rest with e | restArgs
        · rw [hrl] at hok
          simp at hok
        · rw [hrl] at hok
          simp only [Except.ok.injEq] at hok
          subst hok
          exact ⟨child, by simp [slookup], hcols, w2, hw2, hwr⟩
    · have hne : hn ≠ relName := by
        intro hcontra
        subst hcontra
        exact hnotin (List.mem_map.mpr ⟨(hn, relInfo), he, rfl⟩)
      rcases hstep : relationStep remap relationMap tables fields hn hi with e | res
      · rw [hstep] at hok
        simp at hok
      · rw [hstep] at hok
        rcases res with _ | entry
        · exact ih args hok hnodup2 relName relInfo he rt hf tt ht
        · rcases hrl : relationsLoop remap relationMap tables fields rest with e | restArgs
          · rw [hrl] at hok
            simp at hok
          · rw [hrl] at hok
            simp only [Except.ok.injEq] at hok
            subst hok
            obtain ⟨child, hchild, hcols, w2, hw2, hwr⟩ :=
              ih restArgs hrl hnodup2 relName relInfo he rt hf tt ht
            refine ⟨child, ?_, hcols, w2, hw2, hwr⟩
            have hname := relationStep_name remap relationMap tables fields hn hi entry hstep
            obtain ⟨ek, ev⟩ := entry
            simp only at hname
            subst hname
            rw [slookup, if_neg hne]
            exact hchild

/-- C1: for every find-many and find-first invocation whose plan
compiles, the storage capability receives exactly one invocation, whose
argument is the fully built nested plan: the plan carries the projected
columns and the complete recursive child-plan map produced by
extractRelationsParams before the call, and every successfully planned
level holds one child plan per requested relation, itself carrying the
recursive plans of its own sub-selection. -/
theorem c1_single_storage_call (storage : FindManyStorage) (storageFirst : FindFirstStorage)
    (remap : Remap) (tableInfo : TableInfo) (tables : List (String × TableInfo))
    (relations : List (String × List (String × TableNamedRelations)))
    (args : QueryArgs) (fargs : FindFirstArgs) (info : ResolveTree) (plan fplan : FetchPlan)
    (hm : compileFindManyPlan remap tableInfo tables relations args info = .ok plan)
    (hff : compileFindFirstPlan remap tableInfo tables relations fargs info = .ok fplan) :
    (createFindManyResolver storage remap tableInfo tables relations args info).2 = [plan]
    ∧ (createFindFirstResolver storageFirst remap tableInfo tables relations fargs info).2 = [fplan]
    ∧ (∃ w, extractRelationsParams remap relations tables tableInfo.name
        (collectAllFields info.fieldsByTypeName) = .ok w ∧ plan.withRel = w)
    ∧ plan.columns = extractSelectedColumns (collectAllFields info.fieldsByTypeName) tableInfo
    ∧ (∀ tn flds m rels, extractRelationsParams remap relations tables tn flds = .ok (some m) →
        slookup relations tn = some rels → (rels.map Prod.fst).Nodup →
        ∀ relName relInfo, (relName, relInfo) ∈ rels →
        ∀ rt, slookup flds relName = some rt →
        ∀ tt, slookup tables relInfo.targetTableName = some tt →
        ∃ child, slookup m relName = some child
          ∧ child.columns = extractSelectedColumns (collectAllFields rt.fieldsByTypeName) tt
          ∧ ∃ w2, extractRelationsParams remap relations tables relInfo.targetTableName
              (collectAllFields rt.fieldsByTypeName) = .ok w2 ∧ child.withRel = w2) := by
  refine ⟨?_, ?_, ?_, ?_, ?_⟩
  · cases hs : storage plan <;> simp [createFindManyResolver, hm, hs]
  · cases hs : storageFirst fplan <;> simp [createFindFirstResolver, hff, hs]
  · simp only [compileFindManyPlan] at hm
    split at hm
    · cases hm
    · rename_i whereC hwc
      split at hm
      · cases hm
      · rename_i withRel hext
        simp only [Except.ok.injEq] at hm
        subst hm
        exact ⟨withRel, hext, rfl⟩
  · simp only [compileFindManyPlan] at hm
    split at hm
    · cases hm
    · split at hm
      · cases hm
      · simp only [Except.ok.injEq] at hm
        subst hm
        rfl
  · intro tn flds m rels hex hrels hnodup relName relInfo hmem rt hfld tt ht
    rw [extractRelationsParams] at hex
    split at hex
    · simp at hex
    · rename_i rels2 heq
      rw [hrels] at heq
      injection heq with heq2
      subst heq2
      split at hex
      · cases hex
      · rename_i args2 hloop
        simp only [Except.ok.injEq] at hex
        cases hemp : args2.isEmpty with
        | true =>
          rw [hemp] at hex
          simp at hex
        | false =>
          rw [hemp] at hex
          simp only [Bool.false_eq_true, if_false] at hex
          injection hex with hex2
          subst hex2
          exact relationsLoop_spec remap relations tables flds rels args2 hloop hnodup
            relName relInfo hmem rt hfld tt ht

/-- C1 witness: the three-level fixture query, user selecting id, the
post relation and its nested comments relation, compiles to one fetch
plan with two levels of child plans, and each resolver trace holds
exactly that single storage invocation. -/
theorem c1_witness :
    (createFindManyResolver fxStorage idRemap userTable tablesFx relationsFx noArgs userInfoRT).2 =
      [fxPlan]
    ∧ (createFindFirstResolver fxStorageFirst idRemap userTable tablesFx relationsFx
        ⟨none, none⟩ userInfoRT).2 = [fxPlan]
    ∧ fxPlan.withRel = some [("post", .mk ["title"] none none none none
        (some [("comments", .mk ["text"] none none none none none)]))] := by
  have hm : compileFindManyPlan idRemap userTable tablesFx relationsFx noArgs userInfoRT =
      .ok fxPlan := by
    simp [compileFindManyPlan, buildWhereClause, extractRelationsParams, relationsLoop,
      relationStep, collectAllFields, objInsert, extractSelectedColumns, slookup, lookupJ,
      userInfoRT, postRT, commentsRT, leafRT, noArgs, tablesFx, relationsFx, userTable,
      postTable, commentTable, buildOrderByClause, fxPlan, ResolveTree.args,
      ResolveTree.fieldsByTypeName]
  have hff : compileFindFirstPlan idRemap userTable tablesFx relationsFx ⟨none, none⟩ userInfoRT =
      .ok fxPlan := by
    simp [compileFindFirstPlan, buildWhereClause, extractRelationsParams, relationsLoop,
      relationStep, collectAllFields, objInsert, extractSelectedColumns, slookup, lookupJ,
      userInfoRT, postRT, commentsRT, leafRT, noArgs, tablesFx, relationsFx, userTable,
      postTable, commentTable, buildOrderByClause, fxPlan, ResolveTree.args,
      ResolveTree.fieldsByTypeName]
  have h := c1_single_storage_call fxStorage fxStorageFirst idRemap userTable tablesFx relationsFx
    noArgs ⟨none, none⟩ userInfoRT fxPlan fxPlan hm hff
  exact ⟨h.1, h.2.1, rfl⟩

theorem except_wrap_eta (r : Except GraphQLError (List Row)) :
    (match r with
     | .error e => (.error ⟨e.message⟩ : Except GraphQLError (List Row))
     | .ok rows => .ok rows) = r := by
  cases r <;> rfl

/-- C2: insert-many rejects an empty or missing value list with a
validation error; otherwise it submits the remapped values to the
storage write capability requesting the written rows back, and returns
exactly the result of the find-many resolver invoked with a primary-key
inArray filter over the written keys and the original requested-field
tree, so the caller sub-selection and requested relations are honored
on the mutation response. -/
theorem c2_insert_refetch (storage : FindManyStorage)
    (insertStorage : List Row → Except GraphQLError (List Row))
    (remapArrayInput : List Row → List Row) (remap : Remap)
    (tableInfo : TableInfo) (tables : List (String × TableInfo))
    (relations : List (String × List (String × TableNamedRelations)))
    (primaryKeyColumn : Column) (values : List Row) (info : ResolveTree) :
    (values = [] →
      createInsertManyResolver storage insertStorage remapArrayInput remap tableInfo tables
        relations primaryKeyColumn values info = .error ⟨"No values provided for insert"⟩)
    ∧ (values ≠ [] →
      createInsertManyResolver storage insertStorage remapArrayInput remap tableInfo tables
          relations primaryKeyColumn values info =
        match insertStorage (remapArrayInput values) with
        | .error e => .error ⟨e.message⟩
        | .ok insertedRows =>
          (createFindManyResolver storage remap tableInfo tables relations
            (QueryArgs.mk
              (some [(primaryKeyColumn.name,
                .jobj [("inArray",
                  .jarr (insertedRows.map (fun row => rowGet row primaryKeyColumn.name)))])])
              none none none) info).1) := by
  constructor
  · intro hv
    subst hv
    rfl
  · intro hv
    rcases values with _ | ⟨v0, vrest⟩
    · exact absurd rfl hv
    · simp only [createInsertManyResolver, List.isEmpty_cons, Bool.false_eq_true, if_false]
      cases hins : insertStorage (remapArrayInput (v0 :: vrest)) with
      | error e => rfl
      | ok insertedRows => exact except_wrap_eta _

/-- Row written by the storage in the C2 witness. -/
def fxWrittenRow : Row := [("id", .jstr "w1"), ("name", .jstr "X")]

/-- Fixture write capability: reports one written row back. -/
def fxInsertStorage : List Row → Except GraphQLError (List Row) := fun _ => .ok [fxWrittenRow]

/-- Fixture read capability returning the written row. -/
def fxReadStorage : FindManyStorage := fun _ => .ok [fxWrittenRow]

/-- C2 witness: inserting one user row returns the written row through
the primary-key inArray re-select with the original selection, and an
empty value list raises the validation error. -/
theorem c2_witness :
    createInsertManyResolver fxReadStorage fxInsertStorage id idRemap userTable tablesFx
        relationsFx userIdCol [[("name", JVal.jstr "X")]] userInfoRT = .ok [fxWrittenRow]
    ∧ createInsertManyResolver fxReadStorage fxInsertStorage id idRemap userTable tablesFx
        relationsFx userIdCol [] userInfoRT = .error ⟨"No values provided for insert"⟩ := by
  have h := c2_insert_refetch fxReadStorage fxInsertStorage id idRemap userTable tablesFx
    relationsFx userIdCol [[("name", JVal.jstr "X")]] userInfoRT
  have h0 := c2_insert_refetch fxReadStorage fxInsertStorage id idRemap userTable tablesFx
    relationsFx userIdCol [] userInfoRT
  constructor
  · rw [h.2 (by simp)]
    simp [fxInsertStorage, createFindManyResolver, compileFindManyPlan, buildWhereClause,
      whereLoop, whereEntryStep, extractFiltersColumn, extractFiltersLoop, compileOperator,
      skipValue, lookupJ, slookup, extractRelationsParams, relationsLoop, relationStep,
      collectAllFields, objInsert, extractSelectedColumns, userInfoRT, postRT, commentsRT,
      leafRT, tablesFx, relationsFx, userTable, postTable, commentTable, buildOrderByClause,
      fxReadStorage, rowGet, fxWrittenRow, userIdCol, idRemap, combineAnd, combineOr, noArgs,
      leafRT, orderLoop, sortByPriority, ResolveTree.args, ResolveTree.fieldsByTypeName]
  · exact h0.1 rfl

/-- C9: an update-many invocation whose update matches zero rows does
not return an empty list: the re-select step builds a primary-key
inArray filter over the empty list of updated keys, compiling that
filter raises the empty-array validation error naming the primary key
column and the inArray operator, and the whole operation fails with
that structured error. -/
theorem c9_update_zero_rows (storage : FindManyStorage)
    (updateStorage : Row → Option SQLExpr → Except GraphQLError (List Row))
    (remapSingleInput : Row → Row) (remap : Remap)
    (tableInfo : TableInfo) (tables : List (String × TableInfo))
    (relations : List (String × List (String × TableNamedRelations)))
    (primaryKeyColumn pkcol : Column) (whereArg : Option (List (String × JVal)))
    (set : Row) (info : ResolveTree) (w : Option SQLExpr)
    (hset : set ≠ [])
    (hw : buildWhereClause remap tableInfo whereArg = .ok w)
    (hupd : updateStorage (remapSingleInput set) w = .ok [])
    (hpkor : primaryKeyColumn.name ≠ "OR")
    (hpk : slookup tableInfo.columns primaryKeyColumn.name = some pkcol) :
    createUpdateManyResolver storage updateStorage remapSingleInput remap tableInfo tables
        relations primaryKeyColumn whereArg set info =
      .error ⟨"WHERE " ++ primaryKeyColumn.name ++
        ": Unable to use operator inArray with an empty array!"⟩ := by
  have hext : extractFiltersColumn remap pkcol primaryKeyColumn.name
      [("inArray", JVal.jarr [])] =
      .error ⟨"WHERE " ++ primaryKeyColumn.name ++
        ": Unable to use operator inArray with an empty array!"⟩ := by
    rw [extractFiltersColumn]
    rfl
  have hstep : whereEntryStep remap tableInfo primaryKeyColumn.name
      (.jobj [("inArray", .jarr [])]) =
      .error ⟨"WHERE " ++ primaryKeyColumn.name ++
        ": Unable to use operator inArray with an empty array!"⟩ := by
    rw [whereEntryStep]
    rw [if_neg (by simp)]
    rw [hpk]
    exact hext
  have hloopv : whereLoop remap tableInfo
      [(primaryKeyColumn.name, JVal.jobj [("inArray", JVal.jarr [])])] [] =
      .error ⟨"WHERE " ++ primaryKeyColumn.name ++
        ": Unable to use operator inArray with an empty array!"⟩ := by
    rw [whereLoop, if_neg hpkor, hstep]
  have hwhere : buildWhereClause remap tableInfo
      (some [(primaryKeyColumn.name, .jobj [("inArray", .jarr [])])]) =
      .error ⟨"WHERE " ++ primaryKeyColumn.name ++
        ": Unable to use operator inArray with an empty array!"⟩ := by
    rw [buildWhereClause]
    rw [if_neg (by simp)]
    split
    · rename_i x xs heq
      rw [show lookupJ [(primaryKeyColumn.name, JVal.jobj [("inArray", JVal.jarr [])])] "OR" =
          none from by simp [lookupJ, hpkor]] at heq
      cases heq
    · rw [hloopv]
  rcases set with _ | ⟨s0, srest⟩
  · exact absurd rfl hset
  · simp only [createUpdateManyResolver, List.isEmpty_cons, Bool.false_eq_true, if_false,
      hw, hupd, List.map_nil, createFindManyResolver, compileFindManyPlan, hwhere]

/-- Fixture update capability matching zero rows. -/
def fxUpdateStorage : Row → Option SQLExpr → Except GraphQLError (List Row) := fun _ _ => .ok []

/-- C9 witness: updating the user table with a filter matching zero
rows fails with the empty-array inArray validation error for the id
column. -/
theorem c9_witness :
    createUpdateManyResolver fxReadStorage fxUpdateStorage id idRemap userTable tablesFx
        relationsFx userIdCol none [("name", JVal.jstr "x")] userInfoRT =
      .error ⟨"WHERE id: Unable to use operator inArray with an empty array!"⟩ := by
  have h := c9_update_zero_rows fxReadStorage fxUpdateStorage id idRemap userTable tablesFx
    relationsFx userIdCol userIdCol none [("name", JVal.jstr "x")] userInfoRT none
    (by simp) (by rw [buildWhereClause]) rfl (by decide) rfl
  exact h

mutual

/-- Nesting depth of one fetch plan: one plus the depth of its child
plans. -/
def planDepth : FetchPlan → Nat
  | .mk _ _ _ _ _ w => 1 + planWithDepth w

/-- Nesting depth of an optional child-plan map. -/
def planWithDepth : Option (List (String × FetchPlan)) → Nat
  | none => 0
  | some l => planListDepth l

/-- Nesting depth of a child-plan list. -/
def planListDepth : List (String × FetchPlan) → Nat
  | [] => 0
  | (_, p) :: rest => max (planDepth p) (planListDepth rest)

end

theorem planListDepth_le_of_all {l : List (String × FetchPlan)} {bound : Nat}
    (h : ∀ p ∈ l, planDepth p.2 ≤ bound) : planListDepth l ≤ bound := by
  induction l with
  | nil => simp [planListDepth]
  | cons q rest ih =>
    obtain ⟨k, t⟩ := q
    simp only [planListDepth, max_le_iff]
    constructor
    · exact h (k, t) (List.mem_cons_self _ _)
    · exact ih (fun p hp => h p (List.mem_cons_of_mem _ hp))

theorem relationStep_depth (remap : Remap)
    (relationMap : List (String × List (String × TableNamedRelations)))
    (tables : List (String × TableInfo)) (fields : List (String × ResolveTree))
    (relName : String) (relInfo : TableNamedRelations) (entry : String × FetchPlan)
    (IH : ∀ tn flds w2, forestDepth flds < forestDepth fields →
      extractRelationsParams remap relationMap tables tn flds = .ok w2 →
      planWithDepth w2 ≤ forestDepth flds)
    (hok : relationStep remap relationMap tables fields relName relInfo = .ok (some entry)) :
    planDepth entry.2 ≤ forestDepth fields := by
  rw [relationStep] at hok
  split at hok
  · simp at hok
  · rename_i relationField heq
    split at hok
    · simp at hok
    · split at hok
      · cases hok
      · split at hok
        · cases hok
        · rename_i nestedWith hnw
          simp only [Except.ok.injEq, Option.some.injEq] at hok
          rw [← hok]
          have hlt := forestDepth_collectAllFields_lt heq
          have hrec := IH relInfo.targetTableName
            (collectAllFields relationField.fieldsByTypeName) nestedWith hlt hnw
          simp only [planDepth]
          omega

theorem relationsLoop_depth (remap : Remap)
    (relationMap : List (String × List (String × TableNamedRelations)))
    (tables : List (String × TableInfo)) (fields : List (String × ResolveTree))
    (IH : ∀ tn flds w2, forestDepth flds < forestDepth fields →
      extractRelationsParams remap relationMap tables tn flds = .ok w2 →
      planWithDepth w2 ≤ forestDepth flds) :
    ∀ (rels : List (String × TableNamedRelations)) (args : List (String × FetchPlan)),
    relationsLoop remap relationMap tables fields rels = .ok args →
    ∀ p ∈ args, planDepth p.2 ≤ forestDepth fields := by
  intro rels
  induction rels with
  | nil =>
    intro args hok p hp
    rw [relationsLoop] at hok
    simp only [Except.ok.injEq] at hok
    subst hok
    simp at hp
  | cons q rest ihl =>
    intro args hok p hp
    obtain ⟨hn, hi⟩ := q
    rw [relationsLoop] at hok
    rcases hstep : relationStep remap relationMap tables fields hn hi with e | res
    · rw [hstep] at hok
      simp at hok
    · rw [hstep] at hok
      rcases res with _ | entry
      · exact ihl args hok p hp
      · rcases hrl : relationsLoop remap relationMap tables fields rest with e | restArgs
        · rw [hrl] at hok
          simp at hok
        · rw [hrl] at hok
          simp only [Except.ok.injEq] at hok
          subst hok
          rcases List.mem_cons.mp hp with hp1 | hp1
          · rw [hp1]
            exact relationStep_depth remap relationMap tables fields hn hi entry IH hstep
          · exact ihl restArgs hrl p hp1

theorem extract_depth_step (remap : Remap)
    (relationMap : List (String × List (String × TableNamedRelations)))
    (tables : List (String × TableInfo)) (tableName : String)
    (fields : List (String × ResolveTree)) (w : Option (List (String × FetchPlan)))
    (IH : ∀ tn flds w2, forestDepth flds < forestDepth fields →
      extractRelationsParams remap relationMap tables tn flds = .ok w2 →
      planWithDepth w2 ≤ forestDepth flds)
    (hok : extractRelationsParams remap relationMap tables tableName fields = .ok w) :
    planWithDepth w ≤ forestDepth fields := by
  rw [extractRelationsParams] at hok
  split at hok
  · simp only [Except.ok.injEq] at hok
    subst hok
    simp [planWithDepth]
  · split at hok
    · cases hok
    · rename_i args hloop
      simp only [Except.ok.injEq] at hok
      subst hok
      cases hemp : args.isEmpty with
      | true => simp [hemp, planWithDepth]
      | false =>
        simp only [hemp, Bool.false_eq_true, if_false, planWithDepth]
        exact planListDepth_le_of_all
          (relationsLoop_depth remap relationMap tables fields IH _ args hloop)

theorem extractRelationsParams_depth_aux : ∀ (n : Nat) (remap : Remap)
    (relationMap : List (String × List (String × TableNamedRelations)))
    (tables : List (String × TableInfo)) (tableName : String)
    (fields : List (String × ResolveTree)) (w : Option (List (String × FetchPlan))),
    forestDepth fields ≤ n →
    extractRelationsParams remap relationMap tables tableName fields = .ok w →
    planWithDepth w ≤ forestDepth fields := by
  intro n
  induction n with
  | zero =>
    intro remap relationMap tables tableName fields w hb hok
    refine extract_depth_step remap relationMap tables tableName fields w ?_ hok
    intro tn flds w2 hlt _
    exact absurd (lt_of_lt_of_le hlt hb) (Nat.not_lt_zero _)
  | succ k ihn =>
    intro remap relationMap tables tableName fields w hb hok
    refine extract_depth_step remap relationMap tables tableName fields w ?_ hok
    intro tn flds w2 hlt hok2
    exact ihn remap relationMap tables tn flds w2
      (Nat.le_of_lt_succ (lt_of_lt_of_le hlt hb)) hok2

/-- C10: the recursive relation-plan extraction is a total function, so
it terminates on every finite requested-field tree even when the
relation graph is cyclic, and the nesting depth of the produced plan
map is bounded by the depth of the requested-field tree: the recursion
descends into the sub-tree of each requested relation field, and only
the shape of the caller query bounds it; no maximum-depth parameter
exists in its signature. -/
theorem c10_termination_depth (remap : Remap)
    (relationMap : List (String × List (String × TableNamedRelations)))
    (tables : List (String × TableInfo)) (tableName : String)
    (fields : List (String × ResolveTree)) (w : Option (List (String × FetchPlan)))
    (hok : extractRelationsParams remap relationMap tables tableName fields = .ok w) :
    planWithDepth w ≤ forestDepth fields :=
  extractRelationsParams_depth_aux (forestDepth fields) remap relationMap tables tableName
    fields w (le_refl _) hok

/-- Cyclic relation map: the user table has a one relation friend back
to the user table itself. -/
def cycRelations : List (String × List (String × TableNamedRelations)) :=
  [("user", [("friend", ⟨"user", true⟩)])]

/-- Innermost requested friend sub-tree: selects id only. -/
def friendRT1 : ResolveTree := .mk noArgs [("User", [("id", leafRT)])]

/-- Second-level requested friend sub-tree: selects the friend relation
again and id. -/
def friendRT2 : ResolveTree := .mk noArgs [("User", [("friend", friendRT1), ("id", leafRT)])]

/-- Requested fields walking the self-referential relation two levels
deep. -/
def cycFields : List (String × ResolveTree) := [("friend", friendRT2)]

/-- C10 witness: on the self-referential relation graph the extraction
evaluates to a finite two-level plan whose depth is bounded by the
depth of the requested-field tree. -/
theorem c10_witness :
    extractRelationsParams idRemap cycRelations [("user", userTable)] "user" cycFields =
      .ok (some [("friend", .mk ["id"] none none none none
        (some [("friend", .mk ["id"] none none none none none)]))])
    ∧ planWithDepth (some [("friend", FetchPlan.mk ["id"] none none none none
        (some [("friend", .mk ["id"] none none none none none)]))]) ≤ forestDepth cycFields := by
  have hok : extractRelationsParams idRemap cycRelations [("user", userTable)] "user" cycFields =
      .ok (some [("friend", .mk ["id"] none none none none
        (some [("friend", .mk ["id"] none none none none none)]))]) := by
    simp [extractRelationsParams, relationsLoop, relationStep, collectAllFields, objInsert,
      extractSelectedColumns, slookup, lookupJ, cycRelations, cycFields, friendRT1, friendRT2,
      leafRT, noArgs, userTable, buildWhereClause, buildOrderByClause, ResolveTree.args,
      ResolveTree.fieldsByTypeName]
  exact ⟨hok, c10_termination_depth idRemap cycRelations [("user", userTable)] "user"
    cycFields _ hok⟩

end DrizzleGraphql
